import Mathlib

/-!
Formal model of the hive-mind swarm simulation engine
(spatial hash, algorithm strategies, tick orchestrator, anomaly detector),
shallowly embedded over the real numbers.  JavaScript numbers are modelled
as reals, Math.sqrt as Real.sqrt, Math.cos and Math.sin as Real.cos and
Real.sin; Math.random draws are threaded explicitly as streams of real
values, one stream position per syntactic call site.  JS Map objects are
modelled as functions into Option.  Debug-info bookkeeping (lastDebugInfo,
getDebugInfo) is omitted: it never feeds back into the returned agents.
-/

set_option maxHeartbeats 1000000

noncomputable section

open scoped Classical

namespace Hive

/-- 2D vector, from Vec2 in src/core/types.ts. -/
structure Vec where
  x : ℝ
  y : ℝ

/-- Agent presentation state, from AgentState in src/core/types.ts. -/
inductive AgentState where
  | Active
  | Stuck
  | Anomaly
deriving DecidableEq

/-- Algorithm selector, from AlgorithmType in src/core/types.ts. -/
inductive AlgorithmType where
  | boids
  | antColony
  | pso
deriving DecidableEq

/-- Point agent, from Agent in src/core/types.ts. -/
structure Agent where
  id : ℤ
  x : ℝ
  y : ℝ
  vx : ℝ
  vy : ℝ
  heading : ℝ
  state : AgentState

/-- Position of an agent as a vector. -/
def Agent.pos (a : Agent) : Vec := ⟨a.x, a.y⟩

/-- Velocity of an agent as a vector. -/
def Agent.vel (a : Agent) : Vec := ⟨a.vx, a.vy⟩

/-- Obstacle, from Obstacle in src/core/types.ts (shape details unused by the engine). -/
structure Obstacle where
  id : ℤ
  x : ℝ
  y : ℝ
  radius : ℝ

/-- Position of an obstacle as a vector. -/
def Obstacle.pos (o : Obstacle) : Vec := ⟨o.x, o.y⟩

/-- Simulation configuration, from SimConfig in src/core/types.ts. -/
structure SimConfig where
  algorithm : AlgorithmType
  agentCount : ℕ
  worldWidth : ℝ
  worldHeight : ℝ
  maxSpeed : ℝ
  maxForce : ℝ
  separationWeight : ℝ
  alignmentWeight : ℝ
  cohesionWeight : ℝ
  separationRadius : ℝ
  neighborRadius : ℝ
  communicationRange : ℝ
  trailLength : ℝ
  speedMultiplier : ℝ

/-! ## Vector math (src/utils/vector.ts) -/

/-- add from vector.ts. -/
def vadd (a b : Vec) : Vec := ⟨a.x + b.x, a.y + b.y⟩

/-- sub from vector.ts. -/
def vsub (a b : Vec) : Vec := ⟨a.x - b.x, a.y - b.y⟩

/-- scale from vector.ts. -/
def vscale (v : Vec) (s : ℝ) : Vec := ⟨v.x * s, v.y * s⟩

/-- mag from vector.ts. -/
def mag (v : Vec) : ℝ := Real.sqrt (v.x * v.x + v.y * v.y)

/-- magSq from vector.ts. -/
def magSq (v : Vec) : ℝ := v.x * v.x + v.y * v.y

/-- normalize from vector.ts: zero-magnitude vectors normalize to zero. -/
def normalize (v : Vec) : Vec :=
  if mag v > 0 then ⟨v.x / mag v, v.y / mag v⟩ else ⟨0, 0⟩

/-- limit from vector.ts: clamp a vector to a maximum magnitude. -/
def limit (v : Vec) (m : ℝ) : Vec :=
  if magSq v > m * m then
    ⟨v.x / Real.sqrt (magSq v) * m, v.y / Real.sqrt (magSq v) * m⟩
  else v

/-- dist from vector.ts. -/
def dist (a b : Vec) : ℝ :=
  Real.sqrt ((a.x - b.x) * (a.x - b.x) + (a.y - b.y) * (a.y - b.y))

/-- distSq from vector.ts. -/
def distSq (a b : Vec) : ℝ :=
  (a.x - b.x) * (a.x - b.x) + (a.y - b.y) * (a.y - b.y)

/-- heading from vector.ts (Math.atan2 y x modelled via the complex argument). -/
def heading (v : Vec) : ℝ := Complex.arg ⟨v.x, v.y⟩

/-- zero from vector.ts. -/
def vzero : Vec := ⟨0, 0⟩

/-- random from vector.ts: a random vector of magnitude below maxMag,
built from two uniform draws r0 and r1. -/
def randomVec (r0 r1 maxMag : ℝ) : Vec :=
  ⟨Real.cos (r0 * (2 * Real.pi)) * (r1 * maxMag),
   Real.sin (r0 * (2 * Real.pi)) * (r1 * maxMag)⟩

/-! ## Spatial hash (src/utils/spatialHash.ts)

The JS Map keyed by the string "cx,cy" is modelled as a total function
from integer cell coordinates to agent lists; a missing key is the empty
list (the source never stores an empty array, so the encodings agree). -/

/-- cellCoords from spatialHash.ts. -/
def cellOf (cs x y : ℝ) : ℤ × ℤ := (⌊x / cs⌋, ⌊y / cs⌋)

/-- Spatial hash state: cell size and grid contents. -/
structure SpatialHash where
  cellSize : ℝ
  grid : ℤ × ℤ → List Agent

/-- Freshly constructed spatial hash (constructor in spatialHash.ts). -/
def SpatialHash.empty (cs : ℝ) : SpatialHash := ⟨cs, fun _ => []⟩

/-- clear from spatialHash.ts. -/
def SpatialHash.clear (h : SpatialHash) : SpatialHash := ⟨h.cellSize, fun _ => []⟩

/-- insert from spatialHash.ts: append the agent to its cell bucket. -/
def SpatialHash.insert (h : SpatialHash) (a : Agent) : SpatialHash :=
  ⟨h.cellSize, fun k =>
    if k = cellOf h.cellSize a.x a.y then h.grid k ++ [a] else h.grid k⟩

/-- insertAll from spatialHash.ts: clear, then insert every agent in order. -/
def SpatialHash.insertAll (h : SpatialHash) (agents : List Agent) : SpatialHash :=
  agents.foldl SpatialHash.insert h.clear

/-- Integer range lo..hi inclusive, as iterated by the JS for loops. -/
def intRange (lo hi : ℤ) : List ℤ :=
  (List.range (hi + 1 - lo).toNat).map (fun k : ℕ => lo + (k : ℤ))

/-- queryRadius from spatialHash.ts: visit all cells within
ceil(radius / cellSize) rings of the query cell and filter candidates by
exact squared distance and by the excluded id. -/
def SpatialHash.queryRadius (h : SpatialHash) (x y radius : ℝ) (excludeId : ℤ) :
    List Agent :=
  let r2 := radius * radius
  let cx := ⌊x / h.cellSize⌋
  let cy := ⌊y / h.cellSize⌋
  let span := ⌈radius / h.cellSize⌉
  (intRange (-span) span).flatMap fun dx =>
    (intRange (-span) span).flatMap fun dy =>
      (h.grid (cx + dx, cy + dy)).filter fun a =>
        decide (a.id ≠ excludeId ∧
          (a.x - x) * (a.x - x) + (a.y - y) * (a.y - y) ≤ r2)

/-- Modelled from the spec: the brute-force O(n) reference scan that
queryRadius is claimed to match — keep exactly the agents with squared
distance to the query point at most radius squared and id different from
the excluded id. -/
def bruteQueryRadius (agents : List Agent) (x y radius : ℝ) (excludeId : ℤ) :
    List Agent :=
  agents.filter fun a =>
    decide ((a.x - x) * (a.x - x) + (a.y - y) * (a.y - y) ≤ radius * radius ∧
      a.id ≠ excludeId)

/-! ### Spatial hash lemmas -/

lemma mem_intRange {z lo hi : ℤ} : z ∈ intRange lo hi ↔ lo ≤ z ∧ z ≤ hi := by
  unfold intRange
  constructor
  · intro hz
    obtain ⟨k, hk, hzk⟩ := List.mem_map.mp hz
    rw [List.mem_range] at hk
    omega
  · intro hz
    apply List.mem_map.mpr
    exact ⟨(z - lo).toNat, by rw [List.mem_range]; omega, by omega⟩

lemma foldl_insert_grid (cs : ℝ) (g : ℤ × ℤ → List Agent) (agents : List Agent)
    (k : ℤ × ℤ) :
    (agents.foldl SpatialHash.insert ⟨cs, g⟩).grid k =
      g k ++ agents.filter (fun a => decide (cellOf cs a.x a.y = k)) := by
  induction agents generalizing g with
  | nil => simp
  | cons a rest ih =>
    simp only [List.foldl_cons, List.filter_cons]
    have hins : SpatialHash.insert ⟨cs, g⟩ a =
        ⟨cs, fun k' => if k' = cellOf cs a.x a.y then g k' ++ [a] else g k'⟩ := rfl
    rw [hins, ih]
    by_cases hk : cellOf cs a.x a.y = k
    · simp [hk]
    · have hk' : ¬ k = cellOf cs a.x a.y := fun h => hk h.symm
      simp [hk, hk']

lemma foldl_insert_cellSize (h : SpatialHash) (agents : List Agent) :
    (agents.foldl SpatialHash.insert h).cellSize = h.cellSize := by
  induction agents generalizing h with
  | nil => rfl
  | cons a rest ih => simpa using ih (h.insert a)

lemma insertAll_grid (cs : ℝ) (agents : List Agent) (k : ℤ × ℤ) :
    ((SpatialHash.empty cs).insertAll agents).grid k =
      agents.filter (fun a => decide (cellOf cs a.x a.y = k)) := by
  have : (SpatialHash.empty cs).clear = ⟨cs, fun _ => []⟩ := rfl
  unfold SpatialHash.insertAll
  rw [this, foldl_insert_grid]
  simp

lemma insertAll_cellSize (cs : ℝ) (agents : List Agent) :
    ((SpatialHash.empty cs).insertAll agents).cellSize = cs := by
  unfold SpatialHash.insertAll
  rw [foldl_insert_cellSize]
  rfl

lemma floor_sub_floor_le_ceil (a b : ℝ) : ⌊a⌋ - ⌊b⌋ ≤ ⌈a - b⌉ := by
  have h1 : (⌊a⌋ : ℝ) ≤ a := Int.floor_le a
  have h2 : b < (⌊b⌋ : ℝ) + 1 := Int.lt_floor_add_one b
  have h3 : (a - b : ℝ) ≤ (⌈a - b⌉ : ℤ) := Int.le_ceil _
  have hlt : ((⌊a⌋ - ⌊b⌋ : ℤ) : ℝ) < ((⌈a - b⌉ : ℤ) : ℝ) + 1 := by
    push_cast
    linarith
  have : (⌊a⌋ - ⌊b⌋ : ℤ) < ⌈a - b⌉ + 1 := by exact_mod_cast hlt
  omega

/-- Membership characterization of queryRadius over a freshly rebuilt hash. -/
lemma mem_queryRadius_insertAll (cs : ℝ) (agents : List Agent)
    (x y radius : ℝ) (excludeId : ℤ) (b : Agent) :
    b ∈ ((SpatialHash.empty cs).insertAll agents).queryRadius x y radius excludeId ↔
      b ∈ agents ∧
      (-⌈radius / cs⌉ ≤ ⌊b.x / cs⌋ - ⌊x / cs⌋ ∧ ⌊b.x / cs⌋ - ⌊x / cs⌋ ≤ ⌈radius / cs⌉) ∧
      (-⌈radius / cs⌉ ≤ ⌊b.y / cs⌋ - ⌊y / cs⌋ ∧ ⌊b.y / cs⌋ - ⌊y / cs⌋ ≤ ⌈radius / cs⌉) ∧
      b.id ≠ excludeId ∧
      (b.x - x) * (b.x - x) + (b.y - y) * (b.y - y) ≤ radius * radius := by
  unfold SpatialHash.queryRadius
  simp only [insertAll_cellSize, List.mem_flatMap, List.mem_filter, decide_eq_true_eq,
    insertAll_grid, mem_intRange, cellOf, Prod.mk.injEq]
  constructor
  · rintro ⟨dx, ⟨hdx1, hdx2⟩, dy, ⟨hdy1, hdy2⟩, ⟨hbmem, hcx, hcy⟩, hid, hdist⟩
    refine ⟨hbmem, ⟨?_, ?_⟩, ⟨?_, ?_⟩, hid, hdist⟩ <;> omega
  · rintro ⟨hbmem, ⟨hx1, hx2⟩, ⟨hy1, hy2⟩, hid, hdist⟩
    exact ⟨⌊b.x / cs⌋ - ⌊x / cs⌋, ⟨hx1, hx2⟩, ⌊b.y / cs⌋ - ⌊y / cs⌋, ⟨hy1, hy2⟩,
      ⟨hbmem, by omega, by omega⟩, hid, hdist⟩

lemma cell_span_bound {cs u v r : ℝ} (hcs : 0 < cs)
    (h1 : -r ≤ u - v) (h2 : u - v ≤ r) :
    -⌈r / cs⌉ ≤ ⌊u / cs⌋ - ⌊v / cs⌋ ∧ ⌊u / cs⌋ - ⌊v / cs⌋ ≤ ⌈r / cs⌉ := by
  have key : ∀ a b : ℝ, a - b ≤ r → ⌊a / cs⌋ - ⌊b / cs⌋ ≤ ⌈r / cs⌉ := by
    intro a b hab
    have h3 : a / cs - b / cs ≤ r / cs := by
      rw [← sub_div]
      gcongr
    calc ⌊a / cs⌋ - ⌊b / cs⌋ ≤ ⌈a / cs - b / cs⌉ := floor_sub_floor_le_ceil _ _
      _ ≤ ⌈r / cs⌉ := Int.ceil_mono h3
  have hlow := key v u (by linarith)
  have hhigh := key u v h2
  omega

/-- C1 (amended): for every agent set, every query point, every radius
r ≥ 0 and every positive cellSize, the set of agents returned by
queryRadius after a full rebuild equals the set produced by a brute-force
scan keeping exactly the agents with squared distance at most r squared
and id different from excludeId.  (As stated, for arbitrary — possibly
negative — radii, the claim fails: see the counterexample.) -/
theorem C1_queryRadius_matches_bruteforce
    (agents : List Agent) (cs x y radius : ℝ) (excludeId : ℤ)
    (hcs : 0 < cs) (hr : 0 ≤ radius) (b : Agent) :
    b ∈ ((SpatialHash.empty cs).insertAll agents).queryRadius x y radius excludeId ↔
      b ∈ bruteQueryRadius agents x y radius excludeId := by
  rw [mem_queryRadius_insertAll]
  unfold bruteQueryRadius
  rw [List.mem_filter, decide_eq_true_eq]
  constructor
  · rintro ⟨hb, _, _, hid, hd⟩
    exact ⟨hb, hd, hid⟩
  · rintro ⟨hb, hd, hid⟩
    have hx2 : (b.x - x) * (b.x - x) ≤ radius * radius := by
      nlinarith [sq_nonneg (b.y - y)]
    have hy2 : (b.y - y) * (b.y - y) ≤ radius * radius := by
      nlinarith [sq_nonneg (b.x - x)]
    have hxabs1 : -radius ≤ b.x - x := by
      nlinarith [sq_nonneg (b.x - x + radius)]
    have hxabs2 : b.x - x ≤ radius := by
      nlinarith [sq_nonneg (b.x - x - radius)]
    have hyabs1 : -radius ≤ b.y - y := by
      nlinarith [sq_nonneg (b.y - y + radius)]
    have hyabs2 : b.y - y ≤ radius := by
      nlinarith [sq_nonneg (b.y - y - radius)]
    exact ⟨hb, cell_span_bound hcs hxabs1 hxabs2, cell_span_bound hcs hyabs1 hyabs2,
      hid, hd⟩

/-- Witness for C1 at a concrete instance. -/
theorem C1_witness :
    (0 : ℝ) < 50 ∧ (0 : ℝ) ≤ 70 ∧
    (Agent.mk 1 60 0 0 0 0 AgentState.Active ∈
      ((SpatialHash.empty 50).insertAll
        [Agent.mk 0 0 0 0 0 0 AgentState.Active,
         Agent.mk 1 60 0 0 0 0 AgentState.Active]).queryRadius 0 0 70 0 ↔
      Agent.mk 1 60 0 0 0 0 AgentState.Active ∈
        bruteQueryRadius
          [Agent.mk 0 0 0 0 0 0 AgentState.Active,
           Agent.mk 1 60 0 0 0 0 AgentState.Active] 0 0 70 0) :=
  ⟨by norm_num, by norm_num,
    C1_queryRadius_matches_bruteforce _ 50 0 0 70 0 (by norm_num) (by norm_num) _⟩

/-- Counterexample to C1 as stated: with a negative radius the squared
distance filter still admits agents, but the visited cell span collapses
to the query cell alone, so the brute-force scan and queryRadius disagree
(cellSize 50, query at x = 49, agent at x = 51, radius -5). -/
theorem C1_counterexample :
    Agent.mk 0 51 0 0 0 0 AgentState.Active ∈
      bruteQueryRadius [Agent.mk 0 51 0 0 0 0 AgentState.Active] 49 0 (-5) (-1) ∧
    Agent.mk 0 51 0 0 0 0 AgentState.Active ∉
      ((SpatialHash.empty 50).insertAll
        [Agent.mk 0 51 0 0 0 0 AgentState.Active]).queryRadius 49 0 (-5) (-1) := by
  have hfloor49 : ⌊(49 : ℝ) / 50⌋ = 0 := by
    rw [Int.floor_eq_iff] <;> norm_num
  have hfloor51 : ⌊(51 : ℝ) / 50⌋ = 1 := by
    rw [Int.floor_eq_iff] <;> norm_num
  have hfloor0 : ⌊(0 : ℝ) / 50⌋ = 0 := by norm_num
  have hceil : ⌈(-5 : ℝ) / 50⌉ = 0 := by
    rw [Int.ceil_eq_iff] <;> norm_num
  constructor
  · unfold bruteQueryRadius
    rw [List.mem_filter]
    norm_num
  · unfold SpatialHash.queryRadius
    simp only [insertAll_cellSize, hceil, hfloor49, hfloor0, insertAll_grid]
    intro hmem
    rw [List.mem_flatMap] at hmem
    obtain ⟨dx, hdx, hmem⟩ := hmem
    rw [List.mem_flatMap] at hmem
    obtain ⟨dy, hdy, hmem⟩ := hmem
    rw [mem_intRange] at hdx hdy
    have hdx0 : dx = 0 := by omega
    have hdy0 : dy = 0 := by omega
    subst hdx0; subst hdy0
    rw [List.mem_filter, List.mem_filter] at hmem
    have := hmem.1.2
    rw [decide_eq_true_eq] at this
    simp only [cellOf, hfloor51, hfloor0] at this
    norm_num at this

/-- C9 (amended): queryRadius with radius at most minus the cell size
returns the empty result.  For non-positive radii closer to zero the
claim fails, because the distance filter compares against radius squared:
see the counterexample (radius 0 returns an agent coincident with the
query point). -/
theorem C9_nonpositive_radius_empty
    (h : SpatialHash) (x y radius : ℝ) (excludeId : ℤ)
    (hcs : 0 < h.cellSize) (hr : radius ≤ -h.cellSize) :
    h.queryRadius x y radius excludeId = [] := by
  have hdiv : radius / h.cellSize ≤ -1 := by
    rw [div_le_iff hcs]
    linarith
  have hspan : ⌈radius / h.cellSize⌉ ≤ -1 := by
    calc ⌈radius / h.cellSize⌉ ≤ ⌈(-1 : ℝ)⌉ := Int.ceil_mono hdiv
      _ = -1 := by
        rw [show ((-1 : ℝ)) = ((-1 : ℤ) : ℝ) by norm_num, Int.ceil_intCast]
  have hempty : intRange (-⌈radius / h.cellSize⌉) ⌈radius / h.cellSize⌉ = [] := by
    unfold intRange
    have hz : (⌈radius / h.cellSize⌉ + 1 - -⌈radius / h.cellSize⌉).toNat = 0 := by omega
    rw [hz]
    rfl
  unfold SpatialHash.queryRadius
  simp only [hempty, List.flatMap_nil]

/-- Witness for C9 at a concrete instance. -/
theorem C9_witness :
    (0 : ℝ) < 50 ∧ (-50 : ℝ) ≤ -50 ∧
    (SpatialHash.empty 50).queryRadius 0 0 (-50) (-1) = [] :=
  ⟨by norm_num, by norm_num,
    C9_nonpositive_radius_empty (SpatialHash.empty 50) 0 0 (-50) (-1)
      (by norm_num [SpatialHash.empty]) (by norm_num [SpatialHash.empty])⟩

/-- Counterexample to C9 as stated: radius 0 is non-positive, yet an agent
exactly at the query point is returned (its squared distance 0 passes the
filter, and the span 0 loop still visits the query cell). -/
theorem C9_counterexample :
    ((SpatialHash.empty 50).insertAll
      [Agent.mk 0 0 0 0 0 0 AgentState.Active]).queryRadius 0 0 0 (-1) =
      [Agent.mk 0 0 0 0 0 0 AgentState.Active] := by
  have hfloor0 : ⌊(0 : ℝ) / 50⌋ = 0 := by norm_num
  have hceil0 : ⌈(0 : ℝ) / 50⌉ = 0 := by norm_num
  unfold SpatialHash.queryRadius
  simp only [insertAll_cellSize, hceil0, hfloor0]
  have hrange : intRange (-0) 0 = [0] := by
    unfold intRange
    norm_num
    rfl
  rw [hrange]
  simp only [List.flatMap_cons, List.flatMap_nil, List.append_nil, insertAll_grid]
  rw [List.filter_cons]
  norm_num [cellOf]

/-! ## Ant colony strategy (src/algorithms/antColony.ts)

Math.random draws are supplied by a stream r : ℕ → ℝ with one fixed
position per syntactic call site: r 0 lazy-init wander angle, r 1
pheromone steering draw, r 2 wander perturbation, r 3 big random turn,
r 4 fresh heading at the nest, r 5 return wobble.  The JS Map of ant
memories is a function into Option. -/

/-- Generic update of a function-encoded map. -/
def mapUpd {α : Type} (m : ℤ → Option α) (k : ℤ) (v : α) : ℤ → Option α :=
  fun k' => if k' = k then some v else m k'

/-- Food source, from the FoodSource interface in antColony.ts. -/
structure FoodSource where
  x : ℝ
  y : ℝ
  radius : ℝ

/-- Position of a food source as a vector. -/
def FoodSource.pos (f : FoodSource) : Vec := ⟨f.x, f.y⟩

/-- Ant mode: search or return (named ret since return is reserved). -/
inductive AntMode where
  | search
  | ret
deriving DecidableEq

/-- Per-ant memory, from the AntMemory interface in antColony.ts. -/
structure AntMemory where
  mode : AntMode
  wanderAngle : ℝ
  targetFoodIdx : ℤ
  stepsSearching : ℕ

/-- Private state of the AntColonyAlgorithm class. -/
structure AntState where
  pheromoneGrid : ℕ → ℝ
  gridCols : ℕ
  gridRows : ℕ
  cellSize : ℝ
  nestX : ℝ
  nestY : ℝ
  foodSources : List FoodSource
  ants : ℤ → Option AntMemory
  initialized : Bool
  tickCount : ℕ

/-- Field values of a freshly constructed AntColonyAlgorithm. -/
def antFresh : AntState :=
  ⟨fun _ => 0, 0, 0, 8, 0, 0, [], fun _ => none, false, 0⟩

/-- init from antColony.ts: grid dimensions, nest and food source layout. -/
def antInit (cfg : SimConfig) (A : AntState) : AntState :=
  { A with
    gridCols := ⌈cfg.worldWidth / A.cellSize⌉.toNat,
    gridRows := ⌈cfg.worldHeight / A.cellSize⌉.toNat,
    pheromoneGrid := fun _ => 0,
    nestX := cfg.worldWidth * 0.12,
    nestY := cfg.worldHeight * 0.5,
    foodSources :=
      [⟨cfg.worldWidth * 0.85, cfg.worldHeight * 0.2, 25⟩,
       ⟨cfg.worldWidth * 0.80, cfg.worldHeight * 0.8, 25⟩,
       ⟨cfg.worldWidth * 0.55, cfg.worldHeight * 0.12, 20⟩,
       ⟨cfg.worldWidth * 0.60, cfg.worldHeight * 0.88, 20⟩,
       ⟨cfg.worldWidth * 0.45, cfg.worldHeight * 0.5, 15⟩],
    initialized := true }

/-- Evaporation step: multiply each cell by 0.993 and snap sub-0.01
values to exactly 0 (the per-cell body of the evaporation loop). -/
def evaporateGrid (g : ℕ → ℝ) : ℕ → ℝ := fun i =>
  if g i * 0.993 < 0.01 then 0 else g i * 0.993

/-- The 8-neighbour offsets visited by the diffusion inner loop, in
source iteration order (dy outer, dx inner, centre skipped). -/
def diffuseOffsets : List (ℤ × ℤ) :=
  [(-1, -1), (0, -1), (1, -1), (-1, 0), (1, 0), (-1, 1), (0, 1), (1, 1)]

/-- The accumulator body of the diffusion inner loop: add an in-range
neighbour at weight 0.05 to the running (sum, count) pair. -/
def diffuseAccum (A : AntState) (gx gy : ℤ) (p : ℝ × ℝ) (od : ℤ × ℤ) : ℝ × ℝ :=
  let nx := gx + od.1
  let ny := gy + od.2
  if 0 ≤ nx ∧ nx < A.gridCols ∧ 0 ≤ ny ∧ ny < A.gridRows then
    (p.1 + A.pheromoneGrid (ny * A.gridCols + nx).toNat * 0.05, p.2 + 0.05)
  else p

/-- diffusePheromones from antColony.ts: each in-range cell becomes the
weighted blend of itself (0.6) and its in-range 8-neighbours (0.05 each),
normalized by the weight actually present.  Indices beyond the grid keep
their value (the source array simply has no such cells). -/
def diffuseGrid (A : AntState) : ℕ → ℝ := fun idx =>
  if idx < A.gridCols * A.gridRows then
    let sc := diffuseOffsets.foldl
      (diffuseAccum A ((idx % A.gridCols : ℕ) : ℤ) ((idx / A.gridCols : ℕ) : ℤ))
      (A.pheromoneGrid idx * 0.6, (0.6 : ℝ))
    sc.1 / sc.2
  else A.pheromoneGrid idx

/-- The five cells written by a deposit: the centre at full strength and
the four cardinal neighbours at 30 percent. -/
def depositOffsets : List (ℤ × ℤ) := [(0, 0), (1, 0), (-1, 0), (0, 1), (0, -1)]

/-- The per-offset body of depositPheromone: a bounds-checked write,
additively clamped to the field maximum 12. -/
def depositAccum (A : AntState) (cx cy : ℤ) (strength : ℝ) (g : ℕ → ℝ)
    (od : ℤ × ℤ) : ℕ → ℝ :=
  let nx := cx + od.1
  let ny := cy + od.2
  if 0 ≤ nx ∧ nx < A.gridCols ∧ 0 ≤ ny ∧ ny < A.gridRows then
    fun idx =>
      if idx = (ny * A.gridCols + nx).toNat then
        min (g idx + (if od.1 = 0 ∧ od.2 = 0 then strength else strength * 0.3)) 12
      else g idx
  else g

/-- depositPheromone from antColony.ts. -/
def depositPheromone (A : AntState) (x y strength : ℝ) : ℕ → ℝ :=
  depositOffsets.foldl
    (depositAccum A ⌊x / A.cellSize⌋ ⌊y / A.cellSize⌋ strength) A.pheromoneGrid

/-- samplePheromone from antColony.ts: bounds-checked read, 0 outside. -/
def samplePheromone (A : AntState) (x y : ℝ) : ℝ :=
  let cx := ⌊x / A.cellSize⌋
  let cy := ⌊y / A.cellSize⌋
  if 0 ≤ cx ∧ cx < A.gridCols ∧ 0 ≤ cy ∧ cy < A.gridRows then
    A.pheromoneGrid (cy * A.gridCols + cx).toNat
  else 0

/-- wanderForce from antColony.ts: perturb the wander angle by a bounded
random step and head that way; returns the updated angle and the force. -/
def wanderUpd (wa rnd : ℝ) : ℝ × Vec :=
  let wa1 := wa + (rnd - 0.5) * 0.9
  (wa1, ⟨Real.cos wa1 * 0.8, Real.sin wa1 * 0.8⟩)

/-- senseAndSteerPheromone from antColony.ts: sample the field 30 units
ahead at three angular offsets, bail out below total 0.1, otherwise pick
one of the three directions with probability proportional to strength,
bias the wander angle, and push toward it with the strongest sample
clamped to 1. -/
def senseAndSteer (A : AntState) (agent : Agent) (wa rnd : ℝ) : ℝ × Vec :=
  let l := samplePheromone A (agent.x + Real.cos (wa - 0.6) * 30)
                             (agent.y + Real.sin (wa - 0.6) * 30)
  let c := samplePheromone A (agent.x + Real.cos wa * 30)
                             (agent.y + Real.sin wa * 30)
  let rgt := samplePheromone A (agent.x + Real.cos (wa + 0.6) * 30)
                               (agent.y + Real.sin (wa + 0.6) * 30)
  let total := l + c + rgt
  if total < 0.1 then (wa, vzero)
  else
    let rand := rnd * total
    let wa1 := if rand < l then wa - 0.25 else if rand < l + c then wa else wa + 0.25
    let strength := max (max l c) rgt
    (wa1, ⟨Real.cos wa1 * min strength 1, Real.sin wa1 * min strength 1⟩)

/-- First food source index whose radius strictly contains the agent. -/
def findFoodIdx (foods : List FoodSource) (agent : Agent) : Option ℕ :=
  foods.findIdx? (fun f => decide (dist agent.pos f.pos < f.radius))

/-- The search-mode block of the per-ant tick body: increment the no-food
counter; on finding food switch to return mode remembering the food and
resetting the counter; otherwise steer by wander or pheromone following,
with a big random turn every 50th step after 300 fruitless steps.
Returns the updated memory and the steering force. -/
def antSearchPhase (A : AntState) (agent : Agent) (mem : AntMemory) (r : ℕ → ℝ) :
    AntMemory × Vec :=
  let steps := mem.stepsSearching + 1
  match findFoodIdx A.foodSources agent with
  | some fi => (⟨AntMode.ret, mem.wanderAngle, (fi : ℤ), 0⟩, vzero)
  | none =>
    let explorer := agent.id.tmod 10 < 3
    if explorer ∨ steps < 50 then
      let w := wanderUpd mem.wanderAngle (r 2)
      let wa2 := if steps > 300 ∧ steps % 50 = 0 then w.1 + (r 3 - 0.5) * Real.pi else w.1
      (⟨AntMode.search, wa2, mem.targetFoodIdx, steps⟩, vscale w.2 1.5)
    else
      let s := senseAndSteer A agent mem.wanderAngle (r 1)
      let w := wanderUpd s.1 (r 2)
      let force := if mag s.2 > 0.05 then vadd (vscale s.2 1.5) (vscale w.2 0.8)
                   else vscale w.2 1.2
      let wa3 := if steps > 300 ∧ steps % 50 = 0 then w.1 + (r 3 - 0.5) * Real.pi else w.1
      (⟨AntMode.search, wa3, mem.targetFoodIdx, steps⟩, force)

/-- The return-mode block of the per-ant tick body: deposit pheromone
with strength inversely related to the distance from the remembered
food, then either switch back to search with a fresh random heading
(within 15 units of the nest) or steer toward the nest with a small
perpendicular wobble.  Returns memory, force and the updated grid. -/
def antReturnPhase (cfg : SimConfig) (A : AntState) (agent : Agent) (mem : AntMemory)
    (r : ℕ → ℝ) : AntMemory × Vec × (ℕ → ℝ) :=
  let foodDist := if 0 ≤ mem.targetFoodIdx then
      dist agent.pos (A.foodSources.getD mem.targetFoodIdx.toNat ⟨0, 0, 0⟩).pos
    else 100
  let strength := max 0.5 (3.0 - foodDist * 0.005)
  let grid1 := depositPheromone A agent.x agent.y strength
  let toNest := vsub ⟨A.nestX, A.nestY⟩ agent.pos
  let nd := mag toNest
  if nd < 15 then
    let wa := r 4 * (2 * Real.pi)
    (⟨AntMode.search, wa, -1, 0⟩, ⟨Real.cos wa * 2, Real.sin wa * 2⟩, grid1)
  else
    let base := vscale (normalize toNest) (cfg.maxSpeed * 0.9)
    let wobble := (r 5 - 0.5) * 0.4
    (mem,
     vadd base ⟨Real.cos (heading toNest + Real.pi / 2) * wobble,
                Real.sin (heading toNest + Real.pi / 2) * wobble⟩,
     grid1)

/-- The tail of the per-ant tick body: clamp the accumulated force to
three times max force, blend 80 percent of the old velocity with it,
clamp to the mode-dependent speed cap, integrate and clamp the position
to the world rectangle, and emit Stuck while returning, Active while
searching. -/
def antEmit (cfg : SimConfig) (agent : Agent) (mem2 : AntMemory) (force5 : Vec) :
    Agent :=
  let force6 := limit force5 (cfg.maxForce * 3)
  let speedCap := if mem2.mode = AntMode.ret then cfg.maxSpeed * 0.8
                  else cfg.maxSpeed * 0.6
  let vel := limit ⟨agent.vx * 0.8 + force6.x, agent.vy * 0.8 + force6.y⟩ speedCap
  let newX := max 1 (min (cfg.worldWidth - 1) (agent.x + vel.x * cfg.speedMultiplier))
  let newY := max 1 (min (cfg.worldHeight - 1) (agent.y + vel.y * cfg.speedMultiplier))
  ⟨agent.id, newX, newY, vel.x, vel.y, heading vel,
   if mem2.mode = AntMode.ret then AgentState.Stuck else AgentState.Active⟩

/-- One iteration of the per-agent loop in AntColonyAlgorithm.tick:
lazy memory init, search block, return block, obstacle and wall
avoidance, then the emit tail. -/
def antAgentStep (cfg : SimConfig) (obstacles : List Obstacle) (A : AntState)
    (agent : Agent) (r : ℕ → ℝ) : AntState × Agent :=
  let mem0 := match A.ants agent.id with
    | some m => m
    | none => ⟨AntMode.search, r 0 * (2 * Real.pi), -1, 0⟩
  let sp := if mem0.mode = AntMode.search then antSearchPhase A agent mem0 r
            else (mem0, vzero)
  let rp := if sp.1.mode = AntMode.ret then antReturnPhase cfg A agent sp.1 r
            else (sp.1, sp.2, A.pheromoneGrid)
  let mem2 := rp.1
  let grid2 := rp.2.2
  let force1 := obstacles.foldl (fun f obs =>
      let d := dist agent.pos obs.pos
      let boundary := obs.radius + 30
      if d < boundary ∧ d > 0 then
        vadd f (vscale (normalize (vsub agent.pos obs.pos))
          (cfg.maxSpeed * 2 * (1 - d / boundary)))
      else f) rp.2.1
  let force2 := if agent.x < 25 then vadd force1 ⟨2, 0⟩ else force1
  let force3 := if agent.x > cfg.worldWidth - 25 then vadd force2 ⟨-2, 0⟩ else force2
  let force4 := if agent.y < 25 then vadd force3 ⟨0, 2⟩ else force3
  let force5 := if agent.y > cfg.worldHeight - 25 then vadd force4 ⟨0, -2⟩ else force4
  ({ A with pheromoneGrid := grid2, ants := mapUpd A.ants agent.id mem2 },
   antEmit cfg agent mem2 force5)

/-- The per-agent loop of AntColonyAlgorithm.tick, threading the strategy
state left to right; agent i consumes the draw stream ρ i. -/
def antRun (cfg : SimConfig) (obstacles : List Obstacle) (ρ : ℕ → ℕ → ℝ) :
    AntState → List Agent → ℕ → AntState × List Agent
  | A, [], _ => (A, [])
  | A, a :: rest, i =>
    let s := antAgentStep cfg obstacles A a (ρ i)
    let t := antRun cfg obstacles ρ s.1 rest (i + 1)
    (t.1, s.2 :: t.2)

/-- AntColonyAlgorithm.tick: lazy init, tick counter, evaporation,
diffusion every 4th tick, then the per-agent loop. -/
def antTick (A : AntState) (agents : List Agent) (cfg : SimConfig)
    (obstacles : List Obstacle) (ρ : ℕ → ℕ → ℝ) : AntState × List Agent :=
  let A1 := if A.initialized then A else antInit cfg A
  let A2 := { A1 with tickCount := A1.tickCount + 1 }
  let A3 := { A2 with pheromoneGrid := evaporateGrid A2.pheromoneGrid }
  let A4 := if A3.tickCount % 4 = 0 then { A3 with pheromoneGrid := diffuseGrid A3 }
            else A3
  antRun cfg obstacles ρ A4 agents 0

/-! ## Particle swarm strategy (src/algorithms/pso.ts)

The JS Infinity sentinel for fitness values is modelled as the top
element of WithTop ℝ; all actually attained fitness values are finite
reals.  Per-agent draw sites: r 0 = r1, r 1 = r2, r 2 and r 3 the noise
components; tick-level draw sites ρt 0..3 drive the teleport. -/

/-- Per-particle memory, from ParticleMemory in pso.ts. -/
structure ParticleMemory where
  personalBestX : ℝ
  personalBestY : ℝ
  personalBestFitness : WithTop ℝ

/-- Moving target, from Target in pso.ts. -/
structure Target where
  x : ℝ
  y : ℝ
  vx : ℝ
  vy : ℝ

/-- Position of a target as a vector. -/
def Target.pos (t : Target) : Vec := ⟨t.x, t.y⟩

/-- Private state of the PSOAlgorithm class. -/
structure PSOState where
  globalBestFitness : WithTop ℝ
  particles : ℤ → Option ParticleMemory
  targets : List Target
  initialized : Bool
  tickCount : ℕ

/-- Field values of a freshly constructed PSOAlgorithm. -/
def psoFresh : PSOState := ⟨⊤, fun _ => none, [], false, 0⟩

/-- init from pso.ts: three targets, global best reset, particles cleared. -/
def psoInit (cfg : SimConfig) (P : PSOState) : PSOState :=
  { P with
    targets :=
      [⟨cfg.worldWidth * 0.25, cfg.worldHeight * 0.25, 2.5, 1.8⟩,
       ⟨cfg.worldWidth * 0.75, cfg.worldHeight * 0.75, -2.0, 2.2⟩,
       ⟨cfg.worldWidth * 0.5, cfg.worldHeight * 0.15, 1.5, -1.5⟩],
    globalBestFitness := ⊤,
    particles := fun _ => none,
    initialized := true }

/-- fitness from pso.ts: distance to the nearest target, starting the
running minimum at Infinity. -/
def fitness (targets : List Target) (x y : ℝ) : WithTop ℝ :=
  targets.foldl (fun best t =>
    let d : WithTop ℝ :=
      ((Real.sqrt ((x - t.x) * (x - t.x) + (y - t.y) * (y - t.y)) : ℝ) : WithTop ℝ)
    if d < best then d else best) ⊤

/-- nearestTarget from pso.ts: squared-distance argmin with the first
target as the running default (a junk target stands in for the undefined
read the source would make on an empty list). -/
def nearestTarget (targets : List Target) (x y : ℝ) : Target :=
  match targets with
  | [] => ⟨0, 0, 0, 0⟩
  | t0 :: _ =>
    (targets.foldl (fun p t =>
      let d : WithTop ℝ :=
        (((x - t.x) * (x - t.x) + (y - t.y) * (y - t.y) : ℝ) : WithTop ℝ)
      if d < p.2 then (t, d) else p) ((t0, ⊤) : Target × WithTop ℝ)).1

/-- The per-target move-and-bounce body at the top of PSOAlgorithm.tick. -/
def moveTarget (cfg : SimConfig) (t : Target) : Target :=
  let x1 := t.x + t.vx
  let y1 := t.y + t.vy
  let t1 : Target := ⟨x1, y1, t.vx, t.vy⟩
  let t2 : Target := if t1.x < 40 ∨ t1.x > cfg.worldWidth - 40 then
      ⟨max 40 (min (cfg.worldWidth - 40) t1.x), t1.y, -t1.vx, t1.vy⟩ else t1
  if t2.y < 40 ∨ t2.y > cfg.worldHeight - 40 then
    ⟨t2.x, max 40 (min (cfg.worldHeight - 40) t2.y), t2.vx, -t2.vy⟩ else t2

/-- The every-120-ticks stage of PSOAlgorithm.tick when it fires:
teleport one target (selected by tickCount / 120 mod target count) to a
random interior location with a random velocity, and wipe all particle
memory and the global best. -/
def psoTeleport (cfg : SimConfig) (P : PSOState) (ρt : ℕ → ℝ) : PSOState :=
  let idx := (P.tickCount / 120) % P.targets.length
  let angle := ρt 2 * (2 * Real.pi)
  let speed := 1.5 + ρt 3 * 2.0
  { P with
    targets := P.targets.set idx
      ⟨80 + ρt 0 * (cfg.worldWidth - 160), 80 + ρt 1 * (cfg.worldHeight - 160),
       Real.cos angle * speed, Real.sin angle * speed⟩,
    particles := fun _ => none,
    globalBestFitness := ⊤ }

/-- One axis of the wall bounce at the bottom of the per-particle body:
from (velocity component, integrated position), hold the position at the
low boundary with the velocity made positive, respectively at the high
boundary W with the velocity made negative. -/
def bounceAxis (t a lo W : ℝ) : ℝ × ℝ :=
  let p := if a < lo then ((|t|, lo) : ℝ × ℝ) else (t, a)
  if p.2 > W then ((-|p.1|, W) : ℝ × ℝ) else p

/-- The tail of the per-particle tick body: clamp the velocity to max
speed, integrate, bounce off world edges (velocity sign flip, position
held at the boundary), and emit Stuck when within 35 units of the
nearest target. -/
def psoEmit (cfg : SimConfig) (agent : Agent) (nearest : Target) (v2 : Vec) : Agent :=
  let vel := limit v2 cfg.maxSpeed
  let x1 := agent.x + vel.x * cfg.speedMultiplier
  let y1 := agent.y + vel.y * cfg.speedMultiplier
  let px2 := bounceAxis vel.x x1 10 (cfg.worldWidth - 10)
  let py2 := bounceAxis vel.y y1 10 (cfg.worldHeight - 10)
  let nearTarget := dist ⟨px2.2, py2.2⟩ nearest.pos < 35
  ⟨agent.id, px2.2, py2.2, px2.1, py2.1, heading vel,
   if nearTarget then AgentState.Stuck else AgentState.Active⟩

/-- One iteration of the per-agent loop in PSOAlgorithm.tick: lazy
memory init, personal and global best updates, inertia + cognitive +
social + noise velocity update, obstacle avoidance added directly to the
velocity, then the emit tail. -/
def psoAgentStep (cfg : SimConfig) (obstacles : List Obstacle) (P : PSOState)
    (agent : Agent) (r : ℕ → ℝ) : PSOState × Agent :=
  let initP := match P.particles agent.id with
    | some _ => P
    | none =>
      let fit := fitness P.targets agent.x agent.y
      { P with
        particles := mapUpd P.particles agent.id ⟨agent.x, agent.y, fit⟩,
        globalBestFitness := if fit < P.globalBestFitness then fit
                             else P.globalBestFitness }
  let mem := (initP.particles agent.id).getD ⟨agent.x, agent.y, ⊤⟩
  let currentFitness := fitness initP.targets agent.x agent.y
  let mem1 := if currentFitness < mem.personalBestFitness then
      (⟨agent.x, agent.y, currentFitness⟩ : ParticleMemory) else mem
  let gb1 := if currentFitness < initP.globalBestFitness then currentFitness
             else initP.globalBestFitness
  let nearest := nearestTarget initP.targets agent.x agent.y
  let targetPull := vscale (vsub nearest.pos agent.pos) (0.02 * r 1)
  let cognitive := vscale (vsub ⟨mem1.personalBestX, mem1.personalBestY⟩ agent.pos)
    (0.015 * r 0)
  let noise : Vec := ⟨(r 2 - 0.5) * 1.2, (r 3 - 0.5) * 1.2⟩
  let v1 : Vec := ⟨0.75 * agent.vx + cognitive.x + targetPull.x + noise.x,
                   0.75 * agent.vy + cognitive.y + targetPull.y + noise.y⟩
  let v2 := obstacles.foldl (fun v obs =>
      let d := dist agent.pos obs.pos
      let boundary := obs.radius + 40
      if d < boundary ∧ d > 0 then
        let away := normalize (vsub agent.pos obs.pos)
        (⟨v.x + away.x * cfg.maxSpeed * (1 - d / boundary),
          v.y + away.y * cfg.maxSpeed * (1 - d / boundary)⟩ : Vec)
      else v) v1
  let P1 : PSOState :=
    { initP with
      particles := mapUpd initP.particles agent.id mem1,
      globalBestFitness := gb1 }
  (P1, psoEmit cfg agent nearest v2)

/-- The per-agent loop of PSOAlgorithm.tick. -/
def psoRun (cfg : SimConfig) (obstacles : List Obstacle) (ρ : ℕ → ℕ → ℝ) :
    PSOState → List Agent → ℕ → PSOState × List Agent
  | P, [], _ => (P, [])
  | P, a :: rest, i =>
    let s := psoAgentStep cfg obstacles P a (ρ i)
    let t := psoRun cfg obstacles ρ s.1 rest (i + 1)
    (t.1, s.2 :: t.2)

/-- PSOAlgorithm.tick: lazy init, tick counter, target movement, the
every-120-ticks teleport-and-wipe, then the per-agent loop. -/
def psoTick (P : PSOState) (agents : List Agent) (cfg : SimConfig)
    (obstacles : List Obstacle) (ρt : ℕ → ℝ) (ρ : ℕ → ℕ → ℝ) :
    PSOState × List Agent :=
  let P1 := if P.initialized then P else psoInit cfg P
  let P2 := { P1 with tickCount := P1.tickCount + 1 }
  let P3 := { P2 with targets := P2.targets.map (moveTarget cfg) }
  let P4 := if P3.tickCount % 120 = 0 then psoTeleport cfg P3 ρt else P3
  psoRun cfg obstacles ρ P4 agents 0

/-! ## Boids strategy (src/algorithms/boids.ts) -/

/-- separation from boids.ts. -/
def boidsSeparation (cfg : SimConfig) (agent : Agent) (neighbors : List Agent) : Vec :=
  let sc := neighbors.foldl (fun p n =>
      let dsq := distSq agent.pos n.pos
      if dsq > 0 ∧ dsq < cfg.separationRadius * cfg.separationRadius then
        (vadd p.1 (vscale (normalize (vsub agent.pos n.pos)) (1 / Real.sqrt dsq)),
         p.2 + 1)
      else p) ((vzero, (0 : ℕ)) : Vec × ℕ)
  if sc.2 > 0 then
    let steer := vscale sc.1 (1 / (sc.2 : ℝ))
    if mag steer > 0 then
      limit (vsub (vscale (normalize steer) cfg.maxSpeed) agent.vel) cfg.maxForce
    else steer
  else sc.1

/-- alignment from boids.ts. -/
def boidsAlignment (cfg : SimConfig) (agent : Agent) (neighbors : List Agent) : Vec :=
  if neighbors.length = 0 then vzero
  else
    let avg := vscale (neighbors.foldl (fun s n => vadd s n.vel) vzero)
      (1 / (neighbors.length : ℝ))
    if mag avg > 0 then
      limit (vsub (vscale (normalize avg) cfg.maxSpeed) agent.vel) cfg.maxForce
    else avg

/-- cohesion from boids.ts. -/
def boidsCohesion (cfg : SimConfig) (agent : Agent) (neighbors : List Agent) : Vec :=
  if neighbors.length = 0 then vzero
  else
    let center := vscale (neighbors.foldl (fun s n => vadd s n.pos) vzero)
      (1 / (neighbors.length : ℝ))
    let desired := vsub center agent.pos
    if mag desired > 0 then
      limit (vsub (vscale (normalize desired) cfg.maxSpeed) agent.vel) cfg.maxForce
    else desired

/-- avoidObstacles from boids.ts (avoid radius 50). -/
def boidsAvoid (cfg : SimConfig) (agent : Agent) (obstacles : List Obstacle) : Vec :=
  limit (obstacles.foldl (fun s obs =>
    let d := dist agent.pos obs.pos
    let boundary := obs.radius + 50
    if d < boundary ∧ d > 0 then
      vadd s (vscale (normalize (vsub agent.pos obs.pos))
        (cfg.maxSpeed * (1 - d / boundary)))
    else s) vzero) cfg.maxForce

/-- One iteration of the per-agent loop in BoidsAlgorithm.tick. -/
def boidsAgentStep (cfg : SimConfig) (obstacles : List Obstacle) (hash : SpatialHash)
    (agent : Agent) : Agent :=
  let neighbors := hash.queryRadius agent.x agent.y cfg.neighborRadius agent.id
  let sepW := vscale (boidsSeparation cfg agent neighbors) cfg.separationWeight
  let aliW := vscale (boidsAlignment cfg agent neighbors) cfg.alignmentWeight
  let cohW := vscale (boidsCohesion cfg agent neighbors) cfg.cohesionWeight
  let obsW := vscale (boidsAvoid cfg agent obstacles) 3.0
  let force := limit (vadd (vadd (vadd (vadd vzero sepW) aliW) cohW) obsW) cfg.maxForce
  let vel := limit ⟨agent.vx + force.x, agent.vy + force.y⟩ cfg.maxSpeed
  let x1 := agent.x + vel.x * cfg.speedMultiplier
  let y1 := agent.y + vel.y * cfg.speedMultiplier
  let x2 := if x1 < 0 then x1 + cfg.worldWidth else x1
  let x3 := if x2 ≥ cfg.worldWidth then x2 - cfg.worldWidth else x2
  let y2 := if y1 < 0 then y1 + cfg.worldHeight else y1
  let y3 := if y2 ≥ cfg.worldHeight then y2 - cfg.worldHeight else y2
  ⟨agent.id, x3, y3, vel.x, vel.y, heading vel, AgentState.Active⟩

/-- BoidsAlgorithm.tick: stateless per-agent map over the population. -/
def boidsTick (agents : List Agent) (cfg : SimConfig) (obstacles : List Obstacle)
    (hash : SpatialHash) : List Agent :=
  agents.map (boidsAgentStep cfg obstacles hash)

/-! ## Worker orchestrator (src/workers/sim.worker.ts) -/

/-- Closed set of strategy instances (src/algorithms/index.ts); the boids
strategy holds no behavioural state. -/
inductive AlgState where
  | boids
  | ant (A : AntState)
  | pso (P : PSOState)

/-- getAlgorithm from src/algorithms/index.ts: a fresh strategy instance. -/
def getAlgorithm : AlgorithmType → AlgState
  | AlgorithmType.boids => AlgState.boids
  | AlgorithmType.antColony => AlgState.ant antFresh
  | AlgorithmType.pso => AlgState.pso psoFresh

/-- Explicit replacement for the ambient Math.random source: independent
streams for spawning, tick-level draws and per-agent draws. -/
structure Rng where
  tickLevel : ℕ → ℝ
  agentDraws : ℕ → ℕ → ℝ
  spawn : ℕ → ℕ → ℝ

/-- Dispatch of SwarmAlgorithm.tick over the strategy tag. -/
def algTick (alg : AlgState) (agents : List Agent) (cfg : SimConfig)
    (obstacles : List Obstacle) (hash : SpatialHash) (ρ : Rng) :
    AlgState × List Agent :=
  match alg with
  | AlgState.boids => (AlgState.boids, boidsTick agents cfg obstacles hash)
  | AlgState.ant A =>
    let s := antTick A agents cfg obstacles ρ.agentDraws
    (AlgState.ant s.1, s.2)
  | AlgState.pso P =>
    let s := psoTick P agents cfg obstacles ρ.tickLevel ρ.agentDraws
    (AlgState.pso s.1, s.2)

/-- Partial configuration carried by an UPDATE_CONFIG message; absent
fields leave the current value in place. -/
structure ConfigPatch where
  algorithm : Option AlgorithmType
  agentCount : Option ℕ
  worldWidth : Option ℝ
  worldHeight : Option ℝ
  maxSpeed : Option ℝ
  maxForce : Option ℝ
  separationWeight : Option ℝ
  alignmentWeight : Option ℝ
  cohesionWeight : Option ℝ
  separationRadius : Option ℝ
  neighborRadius : Option ℝ
  communicationRange : Option ℝ
  trailLength : Option ℝ
  speedMultiplier : Option ℝ

/-- An entirely absent patch (all fields undefined). -/
def emptyPatch : ConfigPatch :=
  ⟨none, none, none, none, none, none, none, none, none, none, none, none, none, none⟩

/-- Field-wise spread merge of a partial config over the current one. -/
def mergeConfig (c : SimConfig) (p : ConfigPatch) : SimConfig :=
  ⟨p.algorithm.getD c.algorithm,
   p.agentCount.getD c.agentCount,
   p.worldWidth.getD c.worldWidth,
   p.worldHeight.getD c.worldHeight,
   p.maxSpeed.getD c.maxSpeed,
   p.maxForce.getD c.maxForce,
   p.separationWeight.getD c.separationWeight,
   p.alignmentWeight.getD c.alignmentWeight,
   p.cohesionWeight.getD c.cohesionWeight,
   p.separationRadius.getD c.separationRadius,
   p.neighborRadius.getD c.neighborRadius,
   p.communicationRange.getD c.communicationRange,
   p.trailLength.getD c.trailLength,
   p.speedMultiplier.getD c.speedMultiplier⟩

/-- Worker-side messages, from WorkerInMessage in src/workers/protocol.ts. -/
inductive WorkerMsg where
  | init (config : SimConfig) (agents : List Agent) (obstacles : List Obstacle)
  | updateConfig (patch : ConfigPatch)
  | updateObstacles (obstacles : List Obstacle)
  | setDebug (enabled : Bool)
  | setAgents (agents : List Agent)
  | play
  | pause
  | step
  | reset (config : SimConfig)

/-- Module-level mutable state of sim.worker.ts. -/
structure WorkerState where
  agents : List Agent
  config : Option SimConfig
  obstacles : List Obstacle
  algorithm : Option AlgState
  spatialHash : Option SpatialHash
  tick : ℕ
  running : Bool
  debugEnabled : Bool
  posHistory : ℤ → Option (List Vec)

/-- spawnAgents from sim.worker.ts: agent i consumes spawn draws i 0..3
(velocity angle, velocity magnitude, x, y). -/
def spawnAgents (cfg : SimConfig) (ρ : ℕ → ℕ → ℝ) : List Agent :=
  (List.range cfg.agentCount).map (fun i =>
    let vel := randomVec (ρ i 0) (ρ i 1) (cfg.maxSpeed * 0.5)
    ⟨(i : ℤ), ρ i 2 * cfg.worldWidth, ρ i 3 * cfg.worldHeight,
     vel.x, vel.y, heading vel, AgentState.Active⟩)

/-- Append the current position to a history window, evicting the oldest
entry beyond the 40-entry capacity. -/
def pushEvict (h : List Vec) (p : Vec) : List Vec :=
  let h1 := h ++ [p]
  if h1.length > 40 then h1.tail else h1

/-- The anomaly trigger of simTick for one agent against the current
history map: after appending the current position, the window holds its
full 40 entries and the displacement from the oldest recorded position
to the current position is strictly below 8. -/
def anomalyCond (hist : ℤ → Option (List Vec)) (a : Agent) : Prop :=
  let h1 := pushEvict ((hist a.id).getD []) ⟨a.x, a.y⟩
  let oldest := h1.headD ⟨0, 0⟩
  40 ≤ h1.length ∧
    Real.sqrt ((a.x - oldest.x) * (a.x - oldest.x) +
               (a.y - oldest.y) * (a.y - oldest.y)) < 8

/-- The anomaly-detection loop of simTick: per agent, append the current
position to its 40-entry window, and once the window is full overwrite
the state with Anomaly when the displacement from the oldest recorded
position is strictly below 8. -/
def detectAnomalies (hist : ℤ → Option (List Vec)) :
    List Agent → (ℤ → Option (List Vec)) × List Agent
  | [] => (hist, [])
  | a :: rest =>
    let h1 := pushEvict ((hist a.id).getD []) ⟨a.x, a.y⟩
    let a1 := if anomalyCond hist a then { a with state := AgentState.Anomaly } else a
    let t := detectAnomalies (mapUpd hist a.id h1) rest
    (t.1, a1 :: t.2)

/-- simTick from sim.worker.ts: rebuild the spatial hash, run the active
strategy, bump the tick counter, then run anomaly detection over the new
population.  A missing config, algorithm or hash makes it a no-op. -/
def simTick (st : WorkerState) (ρ : Rng) : WorkerState :=
  match st.config, st.algorithm, st.spatialHash with
  | some cfg, some alg, some hash =>
    let hash1 := hash.insertAll st.agents
    let s := algTick alg st.agents cfg st.obstacles hash1 ρ
    let t := detectAnomalies st.posHistory s.2
    { st with
      agents := t.2,
      algorithm := some s.1,
      spatialHash := some hash1,
      tick := st.tick + 1,
      posHistory := t.1 }
  | _, _, _ => st

/-- The onmessage dispatch of sim.worker.ts.  The timer loop is driven
externally; PLAY sets the running flag and synchronously executes the
first tick of the loop, STEP stops the loop and executes exactly one
tick.  JS truthiness: a present algorithm string is always truthy, a
present neighborRadius is truthy unless it is 0. -/
def onMessage (st : WorkerState) (msg : WorkerMsg) (ρ : Rng) : WorkerState :=
  match msg with
  | WorkerMsg.init cfg agents obstacles =>
    { st with
      config := some cfg,
      obstacles := obstacles,
      algorithm := some (getAlgorithm cfg.algorithm),
      spatialHash := some (SpatialHash.empty cfg.neighborRadius),
      agents := if agents.length > 0 then agents else spawnAgents cfg ρ.spawn,
      tick := 0 }
  | WorkerMsg.updateConfig p =>
    match st.config with
    | none => st
    | some cfg =>
      let merged := mergeConfig cfg p
      let st1 := { st with config := some merged }
      let st2 := if p.algorithm.isSome then
          { st1 with algorithm := some (getAlgorithm merged.algorithm) } else st1
      match p.neighborRadius with
      | some v =>
        if v ≠ 0 then
          { st2 with spatialHash := some (SpatialHash.empty merged.neighborRadius) }
        else st2
      | none => st2
  | WorkerMsg.updateObstacles obs => { st with obstacles := obs }
  | WorkerMsg.setDebug b => { st with debugEnabled := b }
  | WorkerMsg.setAgents agents =>
    let st1 := { st with agents := agents }
    match agents with
    | [] => st1
    | a0 :: _ =>
      match st.posHistory a0.id with
      | none => st1
      | some h =>
        let nh := mapUpd st.posHistory a0.id (h.map (fun _ => (⟨a0.x, a0.y⟩ : Vec)))
        { st1 with posHistory := nh }
  | WorkerMsg.play => simTick { st with running := true } ρ
  | WorkerMsg.pause => { st with running := false }
  | WorkerMsg.step => simTick { st with running := false } ρ
  | WorkerMsg.reset cfg =>
    { st with
      running := false,
      config := some cfg,
      algorithm := some (getAlgorithm cfg.algorithm),
      spatialHash := some (SpatialHash.empty cfg.neighborRadius),
      agents := spawnAgents cfg ρ.spawn,
      posHistory := fun _ => none,
      tick := 0 }

/-! ## Velocity clamp and population-shape lemmas -/

lemma mag_limit_le {v : Vec} {c : ℝ} (hc : 0 ≤ c) : mag (limit v c) ≤ c := by
  unfold limit
  split_ifs with h
  · have hpos : 0 < magSq v := lt_of_le_of_lt (mul_self_nonneg c) h
    have hss : Real.sqrt (magSq v) * Real.sqrt (magSq v) = magSq v :=
      Real.mul_self_sqrt hpos.le
    have hsne : Real.sqrt (magSq v) ≠ 0 := by
      have := Real.sqrt_pos.mpr hpos
      linarith
    show Real.sqrt
      ((v.x / Real.sqrt (magSq v) * c) * (v.x / Real.sqrt (magSq v) * c) +
       (v.y / Real.sqrt (magSq v) * c) * (v.y / Real.sqrt (magSq v) * c)) ≤ c
    have hval : (v.x / Real.sqrt (magSq v) * c) * (v.x / Real.sqrt (magSq v) * c) +
        (v.y / Real.sqrt (magSq v) * c) * (v.y / Real.sqrt (magSq v) * c) = c * c := by
      have hmm : magSq v = v.x * v.x + v.y * v.y := rfl
      field_simp
      nlinarith [hss, hmm]
    rw [hval, Real.sqrt_mul_self hc]
  · have h1 : magSq v ≤ c * c := not_lt.mp h
    show Real.sqrt (v.x * v.x + v.y * v.y) ≤ c
    have h2 : v.x * v.x + v.y * v.y ≤ c * c := h1
    calc Real.sqrt (v.x * v.x + v.y * v.y) ≤ Real.sqrt (c * c) := Real.sqrt_le_sqrt h2
      _ = c := Real.sqrt_mul_self hc

lemma antEmit_id (cfg : SimConfig) (agent : Agent) (mem2 : AntMemory) (f : Vec) :
    (antEmit cfg agent mem2 f).id = agent.id := rfl

lemma antEmit_state (cfg : SimConfig) (agent : Agent) (mem2 : AntMemory) (f : Vec) :
    (antEmit cfg agent mem2 f).state =
      (if mem2.mode = AntMode.ret then AgentState.Stuck else AgentState.Active) := rfl

lemma antEmit_speed (cfg : SimConfig) (agent : Agent) (mem2 : AntMemory) (f : Vec)
    (hms : 0 ≤ cfg.maxSpeed) :
    mag (antEmit cfg agent mem2 f).vel ≤
      (if (antEmit cfg agent mem2 f).state = AgentState.Stuck then cfg.maxSpeed * 0.8
       else cfg.maxSpeed * 0.6) := by
  rw [antEmit_state]
  cases hm : mem2.mode with
  | ret =>
    simp only [hm, if_pos]
    have : (antEmit cfg agent mem2 f).vel =
        limit ⟨agent.vx * 0.8 + (limit f (cfg.maxForce * 3)).x,
               agent.vy * 0.8 + (limit f (cfg.maxForce * 3)).y⟩
          (if mem2.mode = AntMode.ret then cfg.maxSpeed * 0.8 else cfg.maxSpeed * 0.6) :=
      rfl
    rw [this, hm]
    simp only [if_pos]
    exact mag_limit_le (by linarith)
  | search =>
    have hne : ¬ (AntMode.search = AntMode.ret) := by decide
    simp only [hm, if_neg hne]
    have hsa : ¬ (AgentState.Active = AgentState.Stuck) := by decide
    simp only [if_neg hsa]
    have : (antEmit cfg agent mem2 f).vel =
        limit ⟨agent.vx * 0.8 + (limit f (cfg.maxForce * 3)).x,
               agent.vy * 0.8 + (limit f (cfg.maxForce * 3)).y⟩
          (if mem2.mode = AntMode.ret then cfg.maxSpeed * 0.8 else cfg.maxSpeed * 0.6) :=
      rfl
    rw [this, hm]
    simp only [if_neg hne]
    exact mag_limit_le (by linarith)

lemma antAgentStep_id (cfg : SimConfig) (obstacles : List Obstacle) (A : AntState)
    (a : Agent) (r : ℕ → ℝ) : (antAgentStep cfg obstacles A a r).2.id = a.id := rfl

lemma antEmit_state_cases (cfg : SimConfig) (agent : Agent) (mem2 : AntMemory) (f : Vec) :
    (antEmit cfg agent mem2 f).state = AgentState.Stuck ∨
    (antEmit cfg agent mem2 f).state = AgentState.Active := by
  rw [antEmit_state]
  split_ifs
  · exact Or.inl rfl
  · exact Or.inr rfl

lemma antAgentStep_state (cfg : SimConfig) (obstacles : List Obstacle) (A : AntState)
    (a : Agent) (r : ℕ → ℝ) :
    (antAgentStep cfg obstacles A a r).2.state = AgentState.Stuck ∨
    (antAgentStep cfg obstacles A a r).2.state = AgentState.Active :=
  antEmit_state_cases cfg a _ _

lemma antAgentStep_speed (cfg : SimConfig) (obstacles : List Obstacle) (A : AntState)
    (a : Agent) (r : ℕ → ℝ) (hms : 0 ≤ cfg.maxSpeed) :
    mag (antAgentStep cfg obstacles A a r).2.vel ≤
      (if (antAgentStep cfg obstacles A a r).2.state = AgentState.Stuck then
        cfg.maxSpeed * 0.8 else cfg.maxSpeed * 0.6) :=
  antEmit_speed cfg a _ _ hms

lemma antRun_ids (cfg : SimConfig) (obstacles : List Obstacle) (ρ : ℕ → ℕ → ℝ) :
    ∀ (agents : List Agent) (A : AntState) (i : ℕ),
      ((antRun cfg obstacles ρ A agents i).2).map Agent.id = agents.map Agent.id := by
  intro agents
  induction agents with
  | nil => intro A i; rfl
  | cons a rest ih =>
    intro A i
    show ((antAgentStep cfg obstacles A a (ρ i)).2 ::
      (antRun cfg obstacles ρ (antAgentStep cfg obstacles A a (ρ i)).1 rest (i + 1)).2).map
        Agent.id = a.id :: rest.map Agent.id
    rw [List.map_cons, antAgentStep_id, ih]

lemma antRun_speed (cfg : SimConfig) (obstacles : List Obstacle) (ρ : ℕ → ℕ → ℝ)
    (hms : 0 ≤ cfg.maxSpeed) :
    ∀ (agents : List Agent) (A : AntState) (i : ℕ),
      ∀ b ∈ (antRun cfg obstacles ρ A agents i).2,
        (b.state = AgentState.Stuck ∨ b.state = AgentState.Active) ∧
        mag b.vel ≤ (if b.state = AgentState.Stuck then cfg.maxSpeed * 0.8
                     else cfg.maxSpeed * 0.6) := by
  intro agents
  induction agents with
  | nil => intro A i b hb; exact absurd hb (by simp [antRun])
  | cons a rest ih =>
    intro A i b hb
    have hb' : b = (antAgentStep cfg obstacles A a (ρ i)).2 ∨
        b ∈ (antRun cfg obstacles ρ (antAgentStep cfg obstacles A a (ρ i)).1 rest (i + 1)).2 := by
      simpa [antRun] using hb
    rcases hb' with rfl | hb'
    · exact ⟨antAgentStep_state cfg obstacles A a (ρ i),
        antAgentStep_speed cfg obstacles A a (ρ i) hms⟩
    · exact ih _ _ b hb'

lemma antTick_ids (A : AntState) (agents : List Agent) (cfg : SimConfig)
    (obstacles : List Obstacle) (ρ : ℕ → ℕ → ℝ) :
    ((antTick A agents cfg obstacles ρ).2).map Agent.id = agents.map Agent.id :=
  antRun_ids cfg obstacles ρ agents _ 0

lemma antTick_speed (A : AntState) (agents : List Agent) (cfg : SimConfig)
    (obstacles : List Obstacle) (ρ : ℕ → ℕ → ℝ) (hms : 0 ≤ cfg.maxSpeed) :
    ∀ b ∈ (antTick A agents cfg obstacles ρ).2,
      (b.state = AgentState.Stuck ∨ b.state = AgentState.Active) ∧
      mag b.vel ≤ (if b.state = AgentState.Stuck then cfg.maxSpeed * 0.8
                   else cfg.maxSpeed * 0.6) :=
  fun b hb => antRun_speed cfg obstacles ρ hms agents _ 0 b hb

lemma bounceAxisSq (t a lo W : ℝ) :
    (bounceAxis t a lo W).1 * (bounceAxis t a lo W).1 = t * t := by
  unfold bounceAxis
  dsimp only
  split_ifs <;> simp [neg_mul_neg, abs_abs, abs_mul_abs_self]

lemma psoEmit_id (cfg : SimConfig) (agent : Agent) (nearest : Target) (v2 : Vec) :
    (psoEmit cfg agent nearest v2).id = agent.id := rfl

lemma psoEmit_state (cfg : SimConfig) (agent : Agent) (nearest : Target) (v2 : Vec) :
    (psoEmit cfg agent nearest v2).state = AgentState.Stuck ∨
    (psoEmit cfg agent nearest v2).state = AgentState.Active := by
  unfold psoEmit
  dsimp only
  split_ifs <;> simp

lemma psoEmit_speed (cfg : SimConfig) (agent : Agent) (nearest : Target) (v2 : Vec)
    (hms : 0 ≤ cfg.maxSpeed) :
    mag (psoEmit cfg agent nearest v2).vel ≤ cfg.maxSpeed := by
  have hv := @mag_limit_le v2 cfg.maxSpeed hms
  unfold mag at hv ⊢
  unfold psoEmit Agent.vel
  dsimp only
  rw [bounceAxisSq, bounceAxisSq]
  exact hv

lemma psoAgentStep_id (cfg : SimConfig) (obstacles : List Obstacle) (P : PSOState)
    (a : Agent) (r : ℕ → ℝ) : (psoAgentStep cfg obstacles P a r).2.id = a.id := rfl

lemma psoAgentStep_state (cfg : SimConfig) (obstacles : List Obstacle) (P : PSOState)
    (a : Agent) (r : ℕ → ℝ) :
    (psoAgentStep cfg obstacles P a r).2.state = AgentState.Stuck ∨
    (psoAgentStep cfg obstacles P a r).2.state = AgentState.Active :=
  psoEmit_state cfg a _ _

lemma psoAgentStep_speed (cfg : SimConfig) (obstacles : List Obstacle) (P : PSOState)
    (a : Agent) (r : ℕ → ℝ) (hms : 0 ≤ cfg.maxSpeed) :
    mag (psoAgentStep cfg obstacles P a r).2.vel ≤ cfg.maxSpeed :=
  psoEmit_speed cfg a _ _ hms

lemma psoRun_ids (cfg : SimConfig) (obstacles : List Obstacle) (ρ : ℕ → ℕ → ℝ) :
    ∀ (agents : List Agent) (P : PSOState) (i : ℕ),
      ((psoRun cfg obstacles ρ P agents i).2).map Agent.id = agents.map Agent.id := by
  intro agents
  induction agents with
  | nil => intro P i; rfl
  | cons a rest ih =>
    intro P i
    show ((psoAgentStep cfg obstacles P a (ρ i)).2 ::
      (psoRun cfg obstacles ρ (psoAgentStep cfg obstacles P a (ρ i)).1 rest (i + 1)).2).map
        Agent.id = a.id :: rest.map Agent.id
    rw [List.map_cons, psoAgentStep_id, ih]

lemma psoRun_speed (cfg : SimConfig) (obstacles : List Obstacle) (ρ : ℕ → ℕ → ℝ)
    (hms : 0 ≤ cfg.maxSpeed) :
    ∀ (agents : List Agent) (P : PSOState) (i : ℕ),
      ∀ b ∈ (psoRun cfg obstacles ρ P agents i).2,
        (b.state = AgentState.Stuck ∨ b.state = AgentState.Active) ∧
        mag b.vel ≤ cfg.maxSpeed := by
  intro agents
  induction agents with
  | nil => intro P i b hb; exact absurd hb (by simp [psoRun])
  | cons a rest ih =>
    intro P i b hb
    have hb' : b = (psoAgentStep cfg obstacles P a (ρ i)).2 ∨
        b ∈ (psoRun cfg obstacles ρ (psoAgentStep cfg obstacles P a (ρ i)).1 rest (i + 1)).2 := by
      simpa [psoRun] using hb
    rcases hb' with rfl | hb'
    · exact ⟨psoAgentStep_state cfg obstacles P a (ρ i),
        psoAgentStep_speed cfg obstacles P a (ρ i) hms⟩
    · exact ih _ _ b hb'

lemma psoTick_ids (P : PSOState) (agents : List Agent) (cfg : SimConfig)
    (obstacles : List Obstacle) (ρt : ℕ → ℝ) (ρ : ℕ → ℕ → ℝ) :
    ((psoTick P agents cfg obstacles ρt ρ).2).map Agent.id = agents.map Agent.id :=
  psoRun_ids cfg obstacles ρ agents _ 0

lemma psoTick_speed (P : PSOState) (agents : List Agent) (cfg : SimConfig)
    (obstacles : List Obstacle) (ρt : ℕ → ℝ) (ρ : ℕ → ℕ → ℝ) (hms : 0 ≤ cfg.maxSpeed) :
    ∀ b ∈ (psoTick P agents cfg obstacles ρt ρ).2,
      (b.state = AgentState.Stuck ∨ b.state = AgentState.Active) ∧
      mag b.vel ≤ cfg.maxSpeed :=
  fun b hb => psoRun_speed cfg obstacles ρ hms agents _ 0 b hb

lemma boidsAgentStep_id (cfg : SimConfig) (obstacles : List Obstacle)
    (hash : SpatialHash) (a : Agent) :
    (boidsAgentStep cfg obstacles hash a).id = a.id := rfl

lemma boidsAgentStep_state (cfg : SimConfig) (obstacles : List Obstacle)
    (hash : SpatialHash) (a : Agent) :
    (boidsAgentStep cfg obstacles hash a).state = AgentState.Active := rfl

lemma boidsAgentStep_speed (cfg : SimConfig) (obstacles : List Obstacle)
    (hash : SpatialHash) (a : Agent) (hms : 0 ≤ cfg.maxSpeed) :
    mag (boidsAgentStep cfg obstacles hash a).vel ≤ cfg.maxSpeed :=
  mag_limit_le hms

lemma boidsTick_ids (agents : List Agent) (cfg : SimConfig) (obstacles : List Obstacle)
    (hash : SpatialHash) :
    (boidsTick agents cfg obstacles hash).map Agent.id = agents.map Agent.id := by
  unfold boidsTick
  rw [List.map_map]
  congr 1

/-! ## Shared concrete instances for witness theorems -/

/-- Default agent for positional lookups. -/
def defaultAgent : Agent := ⟨0, 0, 0, 0, 0, 0, AgentState.Active⟩

/-- Concrete configuration for witness instantiations (the default
config of src/core/types.ts with two agents). -/
def cfgW : SimConfig :=
  ⟨AlgorithmType.boids, 2, 1200, 800, 3, 0.15, 1.5, 1, 1, 30, 60, 80, 30, 1⟩

/-- Concrete agent for witness instantiations. -/
def agW : Agent := ⟨0, 100, 100, 0, 0, 0, AgentState.Active⟩

/-- A constant-zero draw stream. -/
def r0 : ℕ → ℝ := fun _ => 0

/-- A constant-zero per-agent draw stream. -/
def rr0 : ℕ → ℕ → ℝ := fun _ _ => 0

/-- A constant-zero random bundle. -/
def rng0 : Rng := ⟨r0, rr0, rr0⟩

/-- C10: each of the three strategy ticks returns a population of the
same length as the input whose agent at each array position carries the
same id as the input agent at that position. -/
theorem C10_ids_preserved (agents : List Agent) (cfg : SimConfig)
    (obstacles : List Obstacle) (hash : SpatialHash) (A : AntState) (P : PSOState)
    (ρt : ℕ → ℝ) (ρ : ℕ → ℕ → ℝ) :
    (boidsTick agents cfg obstacles hash).map Agent.id = agents.map Agent.id ∧
    ((antTick A agents cfg obstacles ρ).2).map Agent.id = agents.map Agent.id ∧
    ((psoTick P agents cfg obstacles ρt ρ).2).map Agent.id = agents.map Agent.id :=
  ⟨boidsTick_ids agents cfg obstacles hash, antTick_ids A agents cfg obstacles ρ,
   psoTick_ids P agents cfg obstacles ρt ρ⟩

/-- C2: post-tick velocity magnitudes respect the strategy speed caps:
maxSpeed for Flocking and Swarm-Optimization; for Foraging, 0.8 maxSpeed
for an ant emitted in return mode (rendered Stuck by the source) and 0.6
maxSpeed for an ant emitted in search mode (rendered Active). -/
theorem C2_speed_caps (agents : List Agent) (cfg : SimConfig) (obstacles : List Obstacle)
    (hash : SpatialHash) (A : AntState) (P : PSOState) (ρt : ℕ → ℝ) (ρ : ℕ → ℕ → ℝ)
    (hms : 0 ≤ cfg.maxSpeed) :
    (∀ b ∈ boidsTick agents cfg obstacles hash, mag b.vel ≤ cfg.maxSpeed) ∧
    (∀ b ∈ (psoTick P agents cfg obstacles ρt ρ).2, mag b.vel ≤ cfg.maxSpeed) ∧
    (∀ b ∈ (antTick A agents cfg obstacles ρ).2,
      mag b.vel ≤ (if b.state = AgentState.Stuck then cfg.maxSpeed * 0.8
                   else cfg.maxSpeed * 0.6)) := by
  refine ⟨?_, ?_, ?_⟩
  · intro b hb
    simp only [boidsTick, List.mem_map] at hb
    obtain ⟨a, _, rfl⟩ := hb
    exact boidsAgentStep_speed cfg obstacles hash a hms
  · exact fun b hb => (psoTick_speed P agents cfg obstacles ρt ρ hms b hb).2
  · exact fun b hb => (antTick_speed A agents cfg obstacles ρ hms b hb).2

/-- Witness for C2 at a concrete boids instance. -/
theorem C2_witness :
    (0 : ℝ) ≤ cfgW.maxSpeed ∧
    mag ((boidsTick [agW] cfgW [] (SpatialHash.empty 60)).headD defaultAgent).vel ≤
      cfgW.maxSpeed := by
  constructor
  · norm_num [cfgW]
  · exact (C2_speed_caps [agW] cfgW [] (SpatialHash.empty 60) antFresh psoFresh r0 rr0
      (by norm_num [cfgW])).1 _ (by simp [boidsTick])

lemma dist_eq_mag_vsub (a b : Vec) : dist a b = mag (vsub b a) := by
  unfold dist mag vsub
  dsimp only
  congr 1
  ring

lemma findIdxAux_none_iff {α : Type} (p : α → Bool) :
    ∀ (l : List α) (i : ℕ), List.findIdx? p l i = none ↔ ∀ x ∈ l, ¬ p x = true := by
  intro l
  induction l with
  | nil => intro i; simp [List.findIdx?]
  | cons a rest ih =>
    intro i
    rw [show List.findIdx? p (a :: rest) i =
        (if p a then some i else List.findIdx? p rest (i + 1)) from rfl]
    by_cases hp : p a = true
    · simp [hp]
    · rw [if_neg (by simp [hp])]
      rw [ih (i + 1)]
      constructor
      · intro h x hx
        rcases List.mem_cons.mp hx with rfl | hx
        · exact hp
        · exact h x hx
      · intro h x hx
        exact h x (List.mem_cons_of_mem a hx)

lemma findFoodIdx_none_iff (foods : List FoodSource) (agent : Agent) :
    findFoodIdx foods agent = none ↔
      ∀ f ∈ foods, ¬ dist agent.pos f.pos < f.radius := by
  unfold findFoodIdx
  rw [findIdxAux_none_iff]
  constructor
  · intro h f hf
    have := h f hf
    simpa using this
  · intro h f hf
    simpa using h f hf

/-- C4: in the search block an ant switches to return mode iff it is
strictly inside some food source's radius, recording the first such food
index and resetting the search counter; in the return block it switches
back to search mode iff its distance to the nest is strictly below 15. -/
theorem C4_foraging_transitions (A : AntState) (cfg : SimConfig) (agent : Agent)
    (mem : AntMemory) (r : ℕ → ℝ) :
    (mem.mode = AntMode.search →
      (((antSearchPhase A agent mem r).1.mode = AntMode.ret) ↔
        ∃ f ∈ A.foodSources, dist agent.pos f.pos < f.radius) ∧
      (∀ n, findFoodIdx A.foodSources agent = some n →
        (antSearchPhase A agent mem r).1.targetFoodIdx = (n : ℤ) ∧
        (antSearchPhase A agent mem r).1.stepsSearching = 0 ∧
        (antSearchPhase A agent mem r).1.mode = AntMode.ret)) ∧
    (mem.mode = AntMode.ret →
      (((antReturnPhase cfg A agent mem r).1.mode = AntMode.search) ↔
        dist agent.pos ⟨A.nestX, A.nestY⟩ < 15)) := by
  constructor
  · intro _
    constructor
    · unfold antSearchPhase
      cases hf : findFoodIdx A.foodSources agent with
      | some fi =>
        dsimp only
        constructor
        · intro _
          by_contra hno
          push_neg at hno
          have hno' : ∀ f ∈ A.foodSources, ¬ dist agent.pos f.pos < f.radius :=
            fun f hfm => not_lt.mpr (hno f hfm)
          have hn := (findFoodIdx_none_iff A.foodSources agent).mpr hno'
          rw [hf] at hn
          exact Option.noConfusion hn
        · intro _
          rfl
      | none =>
        dsimp only
        constructor
        · intro hmode
          exfalso
          revert hmode
          split_ifs <;> intro hmode <;> simp_all
        · rintro ⟨f, hfm, hfd⟩
          exact absurd hfd ((findFoodIdx_none_iff A.foodSources agent).mp hf f hfm)
    · intro n hn
      unfold antSearchPhase
      rw [hn]
      exact ⟨rfl, rfl, rfl⟩
  · intro hmode
    rw [dist_eq_mag_vsub agent.pos ⟨A.nestX, A.nestY⟩]
    unfold antReturnPhase
    dsimp only
    by_cases h15 : mag (vsub ⟨A.nestX, A.nestY⟩ agent.pos) < 15
    · rw [if_pos h15]
      exact ⟨fun _ => h15, fun _ => rfl⟩
    · rw [if_neg h15]
      dsimp only
      rw [hmode]
      exact ⟨fun h => AntMode.noConfusion h, fun h => absurd h h15⟩

/-- Witness for C4 at the spec's own example: an ant standing exactly
inside food source 1 of the default 1200 by 800 world, and a returning
ant far from the nest. -/
theorem C4_witness :
    ((antSearchPhase (antInit cfgW antFresh) (Agent.mk 0 1020 160 0 0 0 AgentState.Active)
        (AntMemory.mk AntMode.search 0 (-1) 0) r0).1.mode = AntMode.ret ↔
      ∃ f ∈ (antInit cfgW antFresh).foodSources,
        dist (Agent.mk 0 1020 160 0 0 0 AgentState.Active).pos f.pos < f.radius) ∧
    ((antReturnPhase cfgW (antInit cfgW antFresh)
        (Agent.mk 0 1020 160 0 0 0 AgentState.Active)
        (AntMemory.mk AntMode.ret 0 0 0) r0).1.mode = AntMode.search ↔
      dist (Agent.mk 0 1020 160 0 0 0 AgentState.Active).pos
        ⟨(antInit cfgW antFresh).nestX, (antInit cfgW antFresh).nestY⟩ < 15) :=
  ⟨((C4_foraging_transitions (antInit cfgW antFresh) cfgW
      (Agent.mk 0 1020 160 0 0 0 AgentState.Active)
      (AntMemory.mk AntMode.search 0 (-1) 0) r0).1 rfl).1,
   (C4_foraging_transitions (antInit cfgW antFresh) cfgW
      (Agent.mk 0 1020 160 0 0 0 AgentState.Active)
      (AntMemory.mk AntMode.ret 0 0 0) r0).2 rfl⟩

/-! ## Worker command handling: reconfigure and population replacement -/

/-- Fresh per-agent strategy memory: no ant memories and an uninitialized
field for the foraging strategy; no particle memories and the sentinel
global best for the swarm strategy; the flocking strategy is stateless. -/
def algMemoryFresh : AlgState → Prop
  | AlgState.boids => True
  | AlgState.ant A => A.ants = (fun _ => none) ∧ A.initialized = false
  | AlgState.pso P => P.particles = (fun _ => none) ∧ P.globalBestFitness = ⊤

lemma getAlgorithm_fresh (t : AlgorithmType) : algMemoryFresh (getAlgorithm t) := by
  cases t
  · exact trivial
  · exact ⟨rfl, rfl⟩
  · exact ⟨rfl, rfl⟩

lemma updateConfig_eq (st : WorkerState) (p : ConfigPatch) (cfg : SimConfig) (ρ : Rng)
    (hc : st.config = some cfg) :
    onMessage st (WorkerMsg.updateConfig p) ρ =
      { st with
        config := some (mergeConfig cfg p),
        algorithm := if p.algorithm.isSome then
            some (getAlgorithm (mergeConfig cfg p).algorithm) else st.algorithm,
        spatialHash := match p.neighborRadius with
          | some v => if v ≠ 0 then
              some (SpatialHash.empty (mergeConfig cfg p).neighborRadius)
            else st.spatialHash
          | none => st.spatialHash } := by
  unfold onMessage
  rw [hc]
  cases halg : p.algorithm with
  | none =>
    cases hnr : p.neighborRadius with
    | none => simp [halg, hnr]
    | some v =>
      simp only [halg, hnr, Option.isSome_none, Option.isSome_some]
      by_cases hv : v ≠ 0
      · rw [if_pos hv, if_pos hv]
        simp
      · rw [if_neg hv, if_neg hv]
        simp
  | some t =>
    cases hnr : p.neighborRadius with
    | none => simp [halg, hnr]
    | some v =>
      simp only [halg, hnr, Option.isSome_none, Option.isSome_some]
      by_cases hv : v ≠ 0
      · rw [if_pos hv, if_pos hv]
        simp
      · rw [if_neg hv, if_neg hv]
        simp

/-- C5 (amended): processing a Reconfigure command merges the partial
config, recreates the strategy instance iff the patch carries an
algorithm field (which yields an instance with fresh, empty per-agent
memory), and independently recreates the spatial index iff the patch
carries a nonzero neighborRadius field; agents, histories, obstacles and
the tick counter are untouched.  As the claim states it — a change to
either field recreating both objects — it is false: see the
counterexample, where an algorithm switch leaves the old spatial index
in place. -/
theorem C5_reconfigure_recreates (st : WorkerState) (p : ConfigPatch) (cfg : SimConfig)
    (ρ : Rng) (hc : st.config = some cfg) :
    (onMessage st (WorkerMsg.updateConfig p) ρ).config = some (mergeConfig cfg p) ∧
    (p.algorithm.isSome = true →
      (onMessage st (WorkerMsg.updateConfig p) ρ).algorithm =
        some (getAlgorithm (mergeConfig cfg p).algorithm) ∧
      ∀ alg, (onMessage st (WorkerMsg.updateConfig p) ρ).algorithm = some alg →
        algMemoryFresh alg) ∧
    (p.algorithm = none →
      (onMessage st (WorkerMsg.updateConfig p) ρ).algorithm = st.algorithm) ∧
    (∀ v : ℝ, p.neighborRadius = some v → v ≠ 0 →
      (onMessage st (WorkerMsg.updateConfig p) ρ).spatialHash =
        some (SpatialHash.empty (mergeConfig cfg p).neighborRadius)) ∧
    (p.neighborRadius = none →
      (onMessage st (WorkerMsg.updateConfig p) ρ).spatialHash = st.spatialHash) ∧
    (p.neighborRadius = some 0 →
      (onMessage st (WorkerMsg.updateConfig p) ρ).spatialHash = st.spatialHash) ∧
    (onMessage st (WorkerMsg.updateConfig p) ρ).agents = st.agents ∧
    (onMessage st (WorkerMsg.updateConfig p) ρ).posHistory = st.posHistory ∧
    (onMessage st (WorkerMsg.updateConfig p) ρ).obstacles = st.obstacles ∧
    (onMessage st (WorkerMsg.updateConfig p) ρ).tick = st.tick := by
  rw [updateConfig_eq st p cfg ρ hc]
  refine ⟨rfl, ?_, ?_, ?_, ?_, ?_, rfl, rfl, rfl, rfl⟩
  · intro hsome
    constructor
    · dsimp only
      rw [if_pos hsome]
    · intro alg halg
      dsimp only at halg
      rw [if_pos hsome] at halg
      obtain rfl : getAlgorithm (mergeConfig cfg p).algorithm = alg :=
        Option.some_injective _ halg
      exact getAlgorithm_fresh _
  · intro hnone
    dsimp only
    rw [hnone]
    rfl
  · intro v hv hvne
    dsimp only
    rw [hv]
    dsimp only
    rw [if_pos hvne]
  · intro hnone
    dsimp only
    rw [hnone]
  · intro h0
    dsimp only
    rw [h0]
    dsimp only
    rw [if_neg (by simp)]

/-- A worker state with a boids strategy and a spatial index whose grid
still holds an agent in cell (0, 0). -/
def stC5 : WorkerState :=
  ⟨[], some cfgW, [], some AlgState.boids,
   some ⟨60, fun k => if k = ((0 : ℤ), (0 : ℤ)) then [agW] else []⟩,
   0, false, false, fun _ => none⟩

/-- A patch that only switches the algorithm selector. -/
def patchC5 : ConfigPatch := { emptyPatch with algorithm := some AlgorithmType.pso }

/-- Counterexample to C5 as stated: a Reconfigure that changes the
algorithm selector (boids to pso) leaves the spatial index object — old
cell size and old, non-discarded grid contents — in place, instead of
discarding and recreating it. -/
theorem C5_counterexample :
    (onMessage stC5 (WorkerMsg.updateConfig patchC5) rng0).spatialHash =
      stC5.spatialHash ∧
    ∃ h, stC5.spatialHash = some h ∧ h.grid (0, 0) ≠ [] := by
  constructor
  · rw [updateConfig_eq stC5 patchC5 cfgW rng0 rfl]
    simp [patchC5, emptyPatch]
  · refine ⟨_, rfl, ?_⟩
    simp

/-- Witness for C5 at a concrete instance. -/
theorem C5_witness :
    stC5.config = some cfgW ∧
    (patchC5.algorithm.isSome = true →
      (onMessage stC5 (WorkerMsg.updateConfig patchC5) rng0).algorithm =
        some (getAlgorithm (mergeConfig cfgW patchC5).algorithm)) ∧
    (patchC5.neighborRadius = none →
      (onMessage stC5 (WorkerMsg.updateConfig patchC5) rng0).spatialHash =
        stC5.spatialHash) :=
  ⟨rfl,
   fun hs => ((C5_reconfigure_recreates stC5 patchC5 cfgW rng0 rfl).2.1 hs).1,
   (C5_reconfigure_recreates stC5 patchC5 cfgW rng0 rfl).2.2.2.2.1⟩

/-- C8 (amended): SetAgents replaces the population and leaves config,
strategy, index, tick and every anomaly history window unchanged —
except the history of the first agent of the new population, whose
entries (when a window exists) are all overwritten in place with that
agent's current position; no window is cleared or changes length.  As
the claim states it — every history unchanged — it is false for the
first agent: see the counterexample. -/
theorem C8_setAgents_history (st : WorkerState) (newAgents : List Agent) (ρ : Rng) :
    (onMessage st (WorkerMsg.setAgents newAgents) ρ).agents = newAgents ∧
    (onMessage st (WorkerMsg.setAgents newAgents) ρ).tick = st.tick ∧
    (onMessage st (WorkerMsg.setAgents newAgents) ρ).algorithm = st.algorithm ∧
    (onMessage st (WorkerMsg.setAgents newAgents) ρ).spatialHash = st.spatialHash ∧
    (onMessage st (WorkerMsg.setAgents newAgents) ρ).config = st.config ∧
    ∀ k : ℤ,
      (onMessage st (WorkerMsg.setAgents newAgents) ρ).posHistory k =
        (match newAgents with
         | [] => st.posHistory k
         | a0 :: _ =>
           if k = a0.id then
             Option.map (fun h => h.map (fun _ => (⟨a0.x, a0.y⟩ : Vec)))
               (st.posHistory a0.id)
           else st.posHistory k) := by
  cases newAgents with
  | nil => exact ⟨rfl, rfl, rfl, rfl, rfl, fun k => rfl⟩
  | cons a0 rest =>
    unfold onMessage
    dsimp only
    cases hh : st.posHistory a0.id with
    | none =>
      refine ⟨rfl, rfl, rfl, rfl, rfl, fun k => ?_⟩
      by_cases hk : k = a0.id
      · rw [if_pos hk, hk, hh]
        rfl
      · rw [if_neg hk]
    | some h =>
      refine ⟨rfl, rfl, rfl, rfl, rfl, fun k => ?_⟩
      dsimp only
      by_cases hk : k = a0.id
      · simp [mapUpd, hk]
      · simp [mapUpd, hk]

/-- A worker state whose agent 0 already has a two-entry history window. -/
def stC8 : WorkerState :=
  ⟨[agW], some cfgW, [], some AlgState.boids, some (SpatialHash.empty 60), 7, false, false,
   fun k => if k = (0 : ℤ) then some [⟨0, 0⟩, ⟨1, 1⟩] else none⟩

/-- Counterexample to C8 as stated: replacing the population overwrites
the first agent's existing history entries with its current position
(5, 5), so that agent's history does not stay unchanged. -/
theorem C8_counterexample :
    (onMessage stC8
      (WorkerMsg.setAgents [Agent.mk 0 5 5 0 0 0 AgentState.Active]) rng0).posHistory 0 =
      some [(⟨5, 5⟩ : Vec), ⟨5, 5⟩] ∧
    stC8.posHistory 0 = some [(⟨0, 0⟩ : Vec), ⟨1, 1⟩] ∧
    some [(⟨5, 5⟩ : Vec), ⟨5, 5⟩] ≠ some [(⟨0, 0⟩ : Vec), ⟨1, 1⟩] := by
  refine ⟨?_, rfl, ?_⟩
  · unfold onMessage
    dsimp only
    rw [show stC8.posHistory (0 : ℤ) = some [(⟨0, 0⟩ : Vec), ⟨1, 1⟩] from rfl]
    rfl
  · intro hcon
    have h1 : ((⟨5, 5⟩ : Vec) : Vec).x = ((⟨0, 0⟩ : Vec) : Vec).x := by
      have h2 := Option.some_injective _ hcon
      have h3 : ((⟨5, 5⟩ : Vec) : Vec) = ⟨0, 0⟩ := by
        injection h2 with hhead _
      rw [h3]
    norm_num at h1

/-! ## Swarm-optimization personal best and teleport wipe -/

lemma psoAgentStep_pb (cfg : SimConfig) (obstacles : List Obstacle) (P : PSOState)
    (a : Agent) (r : ℕ → ℝ) (idv : ℤ) (m0 : ParticleMemory)
    (h : P.particles idv = some m0) :
    ∃ m1, (psoAgentStep cfg obstacles P a r).1.particles idv = some m1 ∧
      m1.personalBestFitness ≤ m0.personalBestFitness := by
  unfold psoAgentStep
  by_cases hid : idv = a.id
  · subst hid
    simp only [h]
    simp only [Option.getD_some]
    unfold mapUpd
    rw [if_pos rfl]
    by_cases hf : fitness P.targets a.x a.y < m0.personalBestFitness
    · rw [if_pos hf]
      exact ⟨_, rfl, le_of_lt hf⟩
    · rw [if_neg hf]
      exact ⟨m0, rfl, le_refl _⟩
  · cases hpa : P.particles a.id with
    | some mp =>
      simp only [hpa]
      unfold mapUpd
      rw [if_neg hid]
      exact ⟨m0, h, le_refl _⟩
    | none =>
      simp only [hpa]
      unfold mapUpd
      rw [if_neg hid, if_neg hid]
      exact ⟨m0, h, le_refl _⟩

lemma psoRun_pb (cfg : SimConfig) (obstacles : List Obstacle) (ρ : ℕ → ℕ → ℝ) :
    ∀ (agents : List Agent) (P : PSOState) (i : ℕ) (idv : ℤ) (m0 : ParticleMemory),
      P.particles idv = some m0 →
      ∃ m, (psoRun cfg obstacles ρ P agents i).1.particles idv = some m ∧
        m.personalBestFitness ≤ m0.personalBestFitness := by
  intro agents
  induction agents with
  | nil => exact fun P i idv m0 h => ⟨m0, h, le_refl _⟩
  | cons a rest ih =>
    intro P i idv m0 h
    obtain ⟨m1, hm1, hle1⟩ := psoAgentStep_pb cfg obstacles P a (ρ i) idv m0 h
    obtain ⟨m, hm, hle2⟩ := ih (psoAgentStep cfg obstacles P a (ρ i)).1 (i + 1) idv m1 hm1
    exact ⟨m, hm, le_trans hle2 hle1⟩

/-- C7: while the strategy is initialized and the incremented tick count
is not a multiple of 120, every stored personal-best fitness is
non-increasing across the tick (so non-increasing over every run of
consecutive ticks between teleport events); and the teleport stage,
which fires exactly when the tick count is a multiple of 120, leaves all
particle memory empty and the global best at the unreachable sentinel. -/
theorem C7_pso_best_monotone (cfg : SimConfig) (obstacles : List Obstacle) (P : PSOState)
    (agents : List Agent) (ρt : ℕ → ℝ) (ρ : ℕ → ℕ → ℝ) :
    (P.initialized = true → (P.tickCount + 1) % 120 ≠ 0 →
      ∀ (idv : ℤ) (m0 : ParticleMemory), P.particles idv = some m0 →
        ∃ m, (psoTick P agents cfg obstacles ρt ρ).1.particles idv = some m ∧
          m.personalBestFitness ≤ m0.personalBestFitness) ∧
    (P.tickCount % 120 = 0 →
      (psoTeleport cfg P ρt).particles = (fun _ => none) ∧
      (psoTeleport cfg P ρt).globalBestFitness = ⊤) := by
  constructor
  · intro hinit hmod idv m0 hm
    unfold psoTick
    rw [hinit]
    dsimp only
    rw [if_pos rfl, if_neg hmod]
    exact psoRun_pb cfg obstacles ρ agents _ 0 idv m0 hm
  · intro _
    exact ⟨rfl, rfl⟩

/-- A concrete initialized swarm state at tick count 120 holding one
particle memory. -/
def PW : PSOState :=
  ⟨((5 : ℝ) : WithTop ℝ),
   fun i => if i = (0 : ℤ) then some ⟨1, 2, ((3 : ℝ) : WithTop ℝ)⟩ else none,
   [⟨100, 100, 1, 1⟩], true, 120⟩

/-- Witness for C7 at a concrete instance. -/
theorem C7_witness :
    PW.initialized = true ∧ (PW.tickCount + 1) % 120 ≠ 0 ∧ PW.tickCount % 120 = 0 ∧
    PW.particles 0 = some ⟨1, 2, ((3 : ℝ) : WithTop ℝ)⟩ ∧
    (∃ m, (psoTick PW [] cfgW [] r0 rr0).1.particles 0 = some m ∧
      m.personalBestFitness ≤
        (ParticleMemory.mk 1 2 ((3 : ℝ) : WithTop ℝ)).personalBestFitness) ∧
    (psoTeleport cfgW PW r0).particles = (fun _ => none) ∧
    (psoTeleport cfgW PW r0).globalBestFitness = ⊤ := by
  refine ⟨rfl, by norm_num [PW], by norm_num [PW], by simp [PW], ?_, ?_, ?_⟩
  · exact (C7_pso_best_monotone cfgW [] PW [] r0 rr0).1 rfl (by norm_num [PW]) 0 _
      (by simp [PW])
  · exact ((C7_pso_best_monotone cfgW [] PW [] r0 rr0).2 (by norm_num [PW])).1
  · exact ((C7_pso_best_monotone cfgW [] PW [] r0 rr0).2 (by norm_num [PW])).2

/-! ## Pheromone field bounds -/

lemma evaporate_bounds (g : ℕ → ℝ) (hg : ∀ i, 0 ≤ g i ∧ g i ≤ 12) (i : ℕ) :
    0 ≤ evaporateGrid g i ∧ evaporateGrid g i ≤ 12 := by
  unfold evaporateGrid
  obtain ⟨h0, h12⟩ := hg i
  split_ifs with h
  · norm_num
  · constructor <;> nlinarith

lemma evaporate_snap (g : ℕ → ℝ) (i : ℕ) :
    evaporateGrid g i = 0 ∨ 0.01 ≤ evaporateGrid g i := by
  unfold evaporateGrid
  split_ifs with h
  · exact Or.inl rfl
  · exact Or.inr (not_lt.mp h)

lemma diffuse_fold_bounds (A : AntState)
    (hg : ∀ j, 0 ≤ A.pheromoneGrid j ∧ A.pheromoneGrid j ≤ 12) (gx gy : ℤ) :
    ∀ (offs : List (ℤ × ℤ)) (p : ℝ × ℝ),
      0 ≤ p.1 → p.1 ≤ 12 * p.2 → 0 < p.2 →
      0 ≤ (offs.foldl (diffuseAccum A gx gy) p).1 ∧
      (offs.foldl (diffuseAccum A gx gy) p).1 ≤
        12 * (offs.foldl (diffuseAccum A gx gy) p).2 ∧
      0 < (offs.foldl (diffuseAccum A gx gy) p).2 := by
  intro offs
  induction offs with
  | nil => intro p h1 h2 h3; exact ⟨h1, h2, h3⟩
  | cons od rest ih =>
    intro p h1 h2 h3
    rw [List.foldl_cons]
    have hstep : diffuseAccum A gx gy p od =
        (if 0 ≤ gx + od.1 ∧ gx + od.1 < A.gridCols ∧ 0 ≤ gy + od.2 ∧
            gy + od.2 < A.gridRows then
          ((p.1 + A.pheromoneGrid ((gy + od.2) * A.gridCols + (gx + od.1)).toNat * 0.05,
            p.2 + 0.05) : ℝ × ℝ)
        else p) := rfl
    rw [hstep]
    split_ifs with hb
    · refine ih _ ?_ ?_ ?_
      · show 0 ≤ p.1 +
          A.pheromoneGrid ((gy + od.2) * A.gridCols + (gx + od.1)).toNat * 0.05
        have := (hg ((gy + od.2) * A.gridCols + (gx + od.1)).toNat).1
        nlinarith
      · show p.1 +
          A.pheromoneGrid ((gy + od.2) * A.gridCols + (gx + od.1)).toNat * 0.05 ≤
          12 * (p.2 + 0.05)
        have := (hg ((gy + od.2) * A.gridCols + (gx + od.1)).toNat).2
        nlinarith
      · show (0 : ℝ) < p.2 + 0.05
        linarith
    · exact ih p h1 h2 h3

lemma diffuse_bounds (A : AntState)
    (hg : ∀ j, 0 ≤ A.pheromoneGrid j ∧ A.pheromoneGrid j ≤ 12) (i : ℕ) :
    0 ≤ diffuseGrid A i ∧ diffuseGrid A i ≤ 12 := by
  unfold diffuseGrid
  split_ifs with hlt
  · obtain ⟨q0, q12, qpos⟩ := diffuse_fold_bounds A hg
      ((i % A.gridCols : ℕ) : ℤ) ((i / A.gridCols : ℕ) : ℤ) diffuseOffsets
      (A.pheromoneGrid i * 0.6, (0.6 : ℝ))
      (by have := (hg i).1; dsimp only; nlinarith)
      (by have := (hg i).2; dsimp only; nlinarith)
      (by norm_num)
    constructor
    · exact div_nonneg q0 qpos.le
    · rw [div_le_iff qpos]
      linarith
  · exact hg i

lemma deposit_fold_bounds (A : AntState) (cx cy : ℤ) (s : ℝ) (hs : 0 ≤ s) :
    ∀ (offs : List (ℤ × ℤ)) (g : ℕ → ℝ), (∀ j, 0 ≤ g j ∧ g j ≤ 12) →
      ∀ j, 0 ≤ (offs.foldl (depositAccum A cx cy s) g) j ∧
        (offs.foldl (depositAccum A cx cy s) g) j ≤ 12 := by
  intro offs
  induction offs with
  | nil => intro g hg j; exact hg j
  | cons od rest ih =>
    intro g hg j
    rw [List.foldl_cons]
    apply ih
    intro j'
    have hsp : 0 ≤ (if od.1 = 0 ∧ od.2 = 0 then s else s * 0.3) := by
      by_cases h : od.1 = 0 ∧ od.2 = 0
      · rw [if_pos h]; exact hs
      · rw [if_neg h]; nlinarith
    have hstep : depositAccum A cx cy s g od =
        (if 0 ≤ cx + od.1 ∧ cx + od.1 < A.gridCols ∧ 0 ≤ cy + od.2 ∧
            cy + od.2 < A.gridRows then
          (fun idx => if idx = ((cy + od.2) * A.gridCols + (cx + od.1)).toNat then
              min (g idx + (if od.1 = 0 ∧ od.2 = 0 then s else s * 0.3)) 12
            else g idx)
        else g) := rfl
    rw [hstep]
    by_cases hb : 0 ≤ cx + od.1 ∧ cx + od.1 < A.gridCols ∧ 0 ≤ cy + od.2 ∧
        cy + od.2 < A.gridRows
    · rw [if_pos hb]
      by_cases hj : j' = ((cy + od.2) * A.gridCols + (cx + od.1)).toNat
      · rw [if_pos hj]
        refine ⟨le_min ?_ (by norm_num), min_le_right _ _⟩
        have := (hg j').1
        linarith
      · rw [if_neg hj]
        exact hg j'
    · rw [if_neg hb]
      exact hg j'

lemma deposit_bounds (A : AntState) (x y s : ℝ) (hs : 0 ≤ s)
    (hg : ∀ j, 0 ≤ A.pheromoneGrid j ∧ A.pheromoneGrid j ≤ 12) (j : ℕ) :
    0 ≤ depositPheromone A x y s j ∧ depositPheromone A x y s j ≤ 12 := by
  unfold depositPheromone
  exact deposit_fold_bounds A _ _ s hs depositOffsets A.pheromoneGrid hg j

lemma returnPhase_grid_bounds (cfg : SimConfig) (A : AntState) (agent : Agent)
    (mem : AntMemory) (r : ℕ → ℝ)
    (hg : ∀ j, 0 ≤ A.pheromoneGrid j ∧ A.pheromoneGrid j ≤ 12) (j : ℕ) :
    0 ≤ (antReturnPhase cfg A agent mem r).2.2 j ∧
    (antReturnPhase cfg A agent mem r).2.2 j ≤ 12 := by
  have hret : (antReturnPhase cfg A agent mem r).2.2 =
      depositPheromone A agent.x agent.y
        (max 0.5 (3.0 - (if 0 ≤ mem.targetFoodIdx then
            dist agent.pos (A.foodSources.getD mem.targetFoodIdx.toNat ⟨0, 0, 0⟩).pos
          else 100) * 0.005)) := by
    unfold antReturnPhase
    dsimp only
    split_ifs <;> rfl
  rw [hret]
  exact deposit_bounds A agent.x agent.y _
    (le_trans (by norm_num) (le_max_left _ _)) hg j

lemma antAgentStep_grid (cfg : SimConfig) (obstacles : List Obstacle) (A : AntState)
    (agent : Agent) (r : ℕ → ℝ)
    (hg : ∀ j, 0 ≤ A.pheromoneGrid j ∧ A.pheromoneGrid j ≤ 12) (j : ℕ) :
    0 ≤ (antAgentStep cfg obstacles A agent r).1.pheromoneGrid j ∧
    (antAgentStep cfg obstacles A agent r).1.pheromoneGrid j ≤ 12 := by
  unfold antAgentStep
  dsimp only
  split_ifs <;>
    first
      | exact hg j
      | exact returnPhase_grid_bounds cfg A agent _ r hg j

lemma antRun_grid (cfg : SimConfig) (obstacles : List Obstacle) (ρ : ℕ → ℕ → ℝ) :
    ∀ (agents : List Agent) (A : AntState) (i : ℕ),
      (∀ j, 0 ≤ A.pheromoneGrid j ∧ A.pheromoneGrid j ≤ 12) →
      ∀ j, 0 ≤ (antRun cfg obstacles ρ A agents i).1.pheromoneGrid j ∧
        (antRun cfg obstacles ρ A agents i).1.pheromoneGrid j ≤ 12 := by
  intro agents
  induction agents with
  | nil => intro A i hg j; exact hg j
  | cons a rest ih =>
    intro A i hg j
    exact ih (antAgentStep cfg obstacles A a (ρ i)).1 (i + 1)
      (antAgentStep_grid cfg obstacles A a (ρ i) hg) j

/-- C6 (amended): after every Foraging tick each pheromone cell lies in
the interval zero to 12, given in-range cells beforehand; and the
evaporation step snaps every sub-0.01 value to exactly zero.  The claim
that no cell ever holds a nonzero value below 0.01 after a full tick is
false: the every-4th-tick diffusion runs after the snap and can leave
such values — see the counterexample. -/
theorem C6_pheromone_bounds (A : AntState) (agents : List Agent) (cfg : SimConfig)
    (obstacles : List Obstacle) (ρ : ℕ → ℕ → ℝ)
    (hA : ∀ i, 0 ≤ A.pheromoneGrid i ∧ A.pheromoneGrid i ≤ 12) :
    (∀ i, 0 ≤ (antTick A agents cfg obstacles ρ).1.pheromoneGrid i ∧
      (antTick A agents cfg obstacles ρ).1.pheromoneGrid i ≤ 12) ∧
    (∀ (g : ℕ → ℝ) (i : ℕ), evaporateGrid g i = 0 ∨ 0.01 ≤ evaporateGrid g i) := by
  constructor
  · intro i
    unfold antTick
    have h1 : ∀ j, 0 ≤ (if A.initialized then A else antInit cfg A).pheromoneGrid j ∧
        (if A.initialized then A else antInit cfg A).pheromoneGrid j ≤ 12 := by
      split_ifs
      · exact hA
      · intro j
        unfold antInit
        norm_num
    dsimp only
    set A1 := if A.initialized = true then A else antInit cfg A with hA1
    have h2 : ∀ j, 0 ≤ evaporateGrid A1.pheromoneGrid j ∧
        evaporateGrid A1.pheromoneGrid j ≤ 12 := evaporate_bounds _ h1
    split_ifs with h4
    · apply antRun_grid
      intro j
      exact diffuse_bounds _ h2 j
    · apply antRun_grid
      intro j
      exact h2 j
  · exact evaporate_snap

/-- An initialized 2-by-1 foraging field holding 0.05 in cell 1, about
to run its 4th tick (so diffusion fires). -/
def A6 : AntState :=
  ⟨fun i => if i = 1 then 0.05 else 0, 2, 1, 8, 0, 0, [], fun _ => none, true, 3⟩

/-- Counterexample to C6 as stated: after a Foraging tick with no ants,
cell 0 holds 993 / 260000, a nonzero value strictly below 0.01 — the
diffusion step ran after the evaporation snap and left it there. -/
theorem C6_counterexample :
    (antTick A6 [] cfgW [] rr0).1.pheromoneGrid 0 = 993 / 260000 ∧
    (0 : ℝ) < 993 / 260000 ∧ (993 : ℝ) / 260000 < 0.01 := by
  refine ⟨?_, by norm_num, by norm_num⟩
  norm_num [antTick, antRun, A6, evaporateGrid, diffuseGrid, diffuseAccum,
    diffuseOffsets, List.foldl]

/-- Witness for C6 at a fresh foraging state (all-zero field). -/
theorem C6_witness :
    (∀ i, 0 ≤ antFresh.pheromoneGrid i ∧ antFresh.pheromoneGrid i ≤ 12) ∧
    (∀ i, 0 ≤ (antTick antFresh [] cfgW [] rr0).1.pheromoneGrid i ∧
      (antTick antFresh [] cfgW [] rr0).1.pheromoneGrid i ≤ 12) :=
  ⟨fun i => by norm_num [antFresh],
   (C6_pheromone_bounds antFresh [] cfgW [] rr0 (fun i => by norm_num [antFresh])).1⟩

/-! ## Anomaly detector -/

lemma anomalyCond_update_ne (hist : ℤ → Option (List Vec)) (k : ℤ) (h : List Vec)
    (b : Agent) (hne : b.id ≠ k) :
    anomalyCond (mapUpd hist k h) b ↔ anomalyCond hist b := by
  unfold anomalyCond mapUpd
  dsimp only
  rw [if_neg hne]

lemma antRun_state (cfg : SimConfig) (obstacles : List Obstacle) (ρ : ℕ → ℕ → ℝ) :
    ∀ (agents : List Agent) (A : AntState) (i : ℕ),
      ∀ b ∈ (antRun cfg obstacles ρ A agents i).2, b.state ≠ AgentState.Anomaly := by
  intro agents
  induction agents with
  | nil => intro A i b hb; exact absurd hb (by simp [antRun])
  | cons a rest ih =>
    intro A i b hb
    have hb' : b = (antAgentStep cfg obstacles A a (ρ i)).2 ∨
        b ∈ (antRun cfg obstacles ρ (antAgentStep cfg obstacles A a (ρ i)).1 rest (i + 1)).2 := by
      simpa [antRun] using hb
    rcases hb' with rfl | hb'
    · rcases antAgentStep_state cfg obstacles A a (ρ i) with h | h <;> rw [h] <;> simp
    · exact ih _ _ b hb'

lemma psoRun_state (cfg : SimConfig) (obstacles : List Obstacle) (ρ : ℕ → ℕ → ℝ) :
    ∀ (agents : List Agent) (P : PSOState) (i : ℕ),
      ∀ b ∈ (psoRun cfg obstacles ρ P agents i).2, b.state ≠ AgentState.Anomaly := by
  intro agents
  induction agents with
  | nil => intro P i b hb; exact absurd hb (by simp [psoRun])
  | cons a rest ih =>
    intro P i b hb
    have hb' : b = (psoAgentStep cfg obstacles P a (ρ i)).2 ∨
        b ∈ (psoRun cfg obstacles ρ (psoAgentStep cfg obstacles P a (ρ i)).1 rest (i + 1)).2 := by
      simpa [psoRun] using hb
    rcases hb' with rfl | hb'
    · rcases psoAgentStep_state cfg obstacles P a (ρ i) with h | h <;> rw [h] <;> simp
    · exact ih _ _ b hb'

lemma algTick_ids (alg : AlgState) (agents : List Agent) (cfg : SimConfig)
    (obstacles : List Obstacle) (hash : SpatialHash) (ρ : Rng) :
    ((algTick alg agents cfg obstacles hash ρ).2).map Agent.id = agents.map Agent.id := by
  cases alg with
  | boids => exact boidsTick_ids agents cfg obstacles hash
  | ant A => exact antTick_ids A agents cfg obstacles ρ.agentDraws
  | pso P => exact psoTick_ids P agents cfg obstacles ρ.tickLevel ρ.agentDraws

lemma algTick_state (alg : AlgState) (agents : List Agent) (cfg : SimConfig)
    (obstacles : List Obstacle) (hash : SpatialHash) (ρ : Rng) :
    ∀ b ∈ (algTick alg agents cfg obstacles hash ρ).2, b.state ≠ AgentState.Anomaly := by
  intro b hb
  cases alg with
  | boids =>
    have hb' : b ∈ boidsTick agents cfg obstacles hash := hb
    simp only [boidsTick, List.mem_map] at hb'
    obtain ⟨a, _, rfl⟩ := hb'
    rw [boidsAgentStep_state]
    simp
  | ant A => exact antRun_state cfg obstacles ρ.agentDraws agents _ 0 b hb
  | pso P => exact psoRun_state cfg obstacles ρ.agentDraws agents _ 0 b hb

lemma detect_cons (hist : ℤ → Option (List Vec)) (a : Agent) (rest : List Agent) :
    (detectAnomalies hist (a :: rest)).2 =
      (if anomalyCond hist a then { a with state := AgentState.Anomaly } else a) ::
      (detectAnomalies (mapUpd hist a.id (pushEvict ((hist a.id).getD []) ⟨a.x, a.y⟩))
        rest).2 := rfl

lemma detect_len : ∀ (agents : List Agent) (hist : ℤ → Option (List Vec)),
    ((detectAnomalies hist agents).2).length = agents.length := by
  intro agents
  induction agents with
  | nil => intro hist; rfl
  | cons a rest ih =>
    intro hist
    rw [detect_cons, List.length_cons, ih, List.length_cons]

lemma detect_state : ∀ (agents : List Agent) (hist : ℤ → Option (List Vec)),
    (agents.map Agent.id).Nodup →
    ∀ i, i < agents.length →
      ((((detectAnomalies hist agents).2).getD i defaultAgent).state =
          AgentState.Anomaly ↔
        (anomalyCond hist (agents.getD i defaultAgent) ∨
         (agents.getD i defaultAgent).state = AgentState.Anomaly)) := by
  intro agents
  induction agents with
  | nil => intro hist _ i hi; exact absurd hi (by simp)
  | cons a rest ih =>
    intro hist hnd i hi
    have hnd' : (∀ x ∈ rest, ¬ x.id = a.id) ∧ (List.map Agent.id rest).Nodup := by
      simpa using hnd
    cases i with
    | zero =>
      rw [detect_cons, List.getD_cons_zero, List.getD_cons_zero]
      by_cases hfl : anomalyCond hist a
      · rw [if_pos hfl]
        exact ⟨fun _ => Or.inl hfl, fun _ => rfl⟩
      · rw [if_neg hfl]
        constructor
        · exact fun h => Or.inr h
        · rintro (h | h)
          · exact absurd h hfl
          · exact h
    | succ j =>
      have hj : j < rest.length := by simpa using hi
      rw [detect_cons, List.getD_cons_succ, List.getD_cons_succ]
      rw [ih (mapUpd hist a.id (pushEvict ((hist a.id).getD []) ⟨a.x, a.y⟩)) hnd'.2 j hj]
      have hmem : rest.getD j defaultAgent ∈ rest := by
        rw [List.getD_eq_getElem rest defaultAgent hj]
        exact List.getElem_mem hj
      have hbid : (rest.getD j defaultAgent).id ≠ a.id := hnd'.1 _ hmem
      rw [anomalyCond_update_ne hist a.id _ _ hbid]

/-- C3: within a simTick, the orchestrator emits an agent as Anomaly iff
its position window — after recording the strategy-produced position —
holds its full 40 samples and the displacement from the oldest recorded
position to the current position is strictly below 8; in particular an
agent with fewer than 40 recorded samples is never flagged, and the
strategies themselves never emit the Anomaly state. -/
theorem C3_anomaly_iff (st : WorkerState) (ρ : Rng) (cfg : SimConfig) (alg : AlgState)
    (hash : SpatialHash) (hc : st.config = some cfg) (ha : st.algorithm = some alg)
    (hh : st.spatialHash = some hash) (hnd : (st.agents.map Agent.id).Nodup)
    (i : ℕ) (hi : i < st.agents.length) :
    (((simTick st ρ).agents.getD i defaultAgent).state = AgentState.Anomaly ↔
      anomalyCond st.posHistory
        (((algTick alg st.agents cfg st.obstacles (hash.insertAll st.agents) ρ).2).getD i
          defaultAgent)) := by
  unfold simTick
  rw [hc, ha, hh]
  dsimp only
  have hids := algTick_ids alg st.agents cfg st.obstacles (hash.insertAll st.agents) ρ
  have hlen : ((algTick alg st.agents cfg st.obstacles (hash.insertAll st.agents) ρ).2).length
      = st.agents.length := by
    have := congrArg List.length hids
    simpa using this
  have hndo : (((algTick alg st.agents cfg st.obstacles (hash.insertAll st.agents) ρ).2).map
      Agent.id).Nodup := by
    rw [hids]; exact hnd
  have hio : i < ((algTick alg st.agents cfg st.obstacles (hash.insertAll st.agents) ρ).2).length := by
    rw [hlen]; exact hi
  rw [detect_state _ st.posHistory hndo i hio]
  have hmem : ((algTick alg st.agents cfg st.obstacles (hash.insertAll st.agents) ρ).2).getD i
      defaultAgent ∈ (algTick alg st.agents cfg st.obstacles (hash.insertAll st.agents) ρ).2 := by
    rw [List.getD_eq_getElem _ defaultAgent hio]
    exact List.getElem_mem hio
  have hstate := algTick_state alg st.agents cfg st.obstacles (hash.insertAll st.agents) ρ _ hmem
  constructor
  · rintro (h | h)
    · exact h
    · exact absurd h hstate
  · exact Or.inl

/-- A one-agent boids worker state with empty histories. -/
def stC3 : WorkerState :=
  ⟨[agW], some cfgW, [], some AlgState.boids, some (SpatialHash.empty 60), 0, false, false,
   fun _ => none⟩

/-- Witness for C3 at a concrete instance. -/
theorem C3_witness :
    stC3.config = some cfgW ∧ stC3.algorithm = some AlgState.boids ∧
    stC3.spatialHash = some (SpatialHash.empty 60) ∧
    ((stC3.agents.map Agent.id).Nodup) ∧ 0 < stC3.agents.length ∧
    (((simTick stC3 rng0).agents.getD 0 defaultAgent).state = AgentState.Anomaly ↔
      anomalyCond stC3.posHistory
        (((algTick AlgState.boids stC3.agents cfgW stC3.obstacles
            ((SpatialHash.empty 60).insertAll stC3.agents) rng0).2).getD 0
          defaultAgent)) :=
  ⟨rfl, rfl, rfl, by simp [stC3, agW], by norm_num [stC3],
   C3_anomaly_iff stC3 rng0 cfgW AlgState.boids (SpatialHash.empty 60) rfl rfl rfl
     (by simp [stC3, agW]) 0 (by norm_num [stC3])⟩

end Hive
